import Mathlib

/-! Page-curl mesh builder: embedding of `PageBuilder` and `PageMaterials`.

Shallow embedding of `libs/pagecurl/src/PageBuilder.cpp`, `PageBuilder.h`,
`PageMaterials.cpp` and `PageMaterials.h`.

Conventions of the embedding:

* `int` is `Int` with every arithmetic result reduced to the 32-bit two's
  complement range by `wrap32`;
* `float` is `ℚ` (exact arithmetic, no rounding, no NaN or infinity);
* a pointer that may be null is an `Option`;
* a `malloc`ed array is a `Mem α`: the record of the stores the code makes
  through the pointer to that array, as a map from the element index the code
  computes to the value last stored there through this pointer, `none` where
  the code has made no such store. A store is recorded also when its index
  lies outside the allocation. The record of an array is what the array holds
  as long as no store of the run has gone outside an allocation; once one has,
  what the arrays of the heap hold depends on where the allocator placed them
  and is not determined by the embedding;
* the calls into the rendering engine are not modelled, only the arguments
  `build` passes to them.
-/

namespace filament.pagecurl

/-! ## Machine integers -/

/-- Reduction of an integer to the range of a 32-bit `int`. -/
def wrap32 (x : Int) : Int := (x + 2147483648) % 4294967296 - 2147483648

/-- The `int` sum `a + b`. -/
def iadd (a b : Int) : Int := wrap32 (a + b)

/-- The `int` product `a * b`. -/
def imul (a b : Int) : Int := wrap32 (a * b)

/-- Conversion of an `int` to `uint16_t`, as done by `indices[n] = i`. -/
def toUInt16 (x : Int) : Int := x % 65536

/-- The values an `int` variable can hold. -/
def isInt32 (x : Int) : Prop := -2147483648 ≤ x ∧ x ≤ 2147483647

instance (x : Int) : Decidable (isInt32 x) := by
  unfold isInt32
  infer_instance

/-! ## Vector types and memory -/

/-- The type `math::float2`. -/
structure float2 where
  x : ℚ
  y : ℚ
deriving DecidableEq

/-- The type `math::float3`. -/
structure float3 where
  x : ℚ
  y : ℚ
  z : ℚ
deriving DecidableEq

/-- The type `math::int2`. -/
structure int2 where
  x : Int
  y : Int
deriving DecidableEq

/-- Implicit conversions from a scalar `float` to the vector types: the
assignments `positions[n] = x` and `uvs[n] = u` of `addVertex` store a `float`
into an element of type `float3`, respectively `float2`, and go through them.
The headers `math/vec2.h` and `math/vec3.h` that define them are not among the
sources, so the conversions are parameters of the embedding. -/
structure ScalarConv where
  toFloat3 : ℚ → float3
  toFloat2 : ℚ → float2

/-- The conversion that copies the scalar into every component. -/
def broadcast : ScalarConv where
  toFloat3 := fun s => ⟨s, s, s⟩
  toFloat2 := fun s => ⟨s, s⟩

/-- Modelled from the spec: `sizeof(float3)`, the position stream holds
"3 floats/vertex" of 4 bytes each; `math/vec3.h` is not among the sources. -/
def sizeofFloat3 : Int := 12

/-- Modelled from the spec: `sizeof(float2)`, the UV stream holds
"2 floats/vertex" of 4 bytes each; `math/vec2.h` is not among the sources. -/
def sizeofFloat2 : Int := 8

/-- The size in bytes of a `uint16_t`. -/
def sizeofUInt16 : Int := 2

/-- The size in bytes of an `int16_t`. -/
def sizeofInt16 : Int := 2

/-- The content of an array: element index to stored element. -/
abbrev Mem (α : Type) := Int → Option α

/-- A freshly `malloc`ed array: nothing stored yet. -/
def Mem.fresh {α : Type} : Mem α := fun _ => none

/-- The assignment `m[i] = v`. -/
def Mem.store {α : Type} (m : Mem α) (i : Int) (v : α) : Mem α :=
  fun j => if j = i then some v else m j

/-- A `BufferDescriptor`: the array handed to the engine and its size in
bytes. -/
structure BufferDescriptor (α : Type) where
  buffer : Mem α
  size : Int

/-! ## PageMaterials -/

/-- The enumeration `PageMaterials::Parameter`. -/
inductive Parameter where
  | IMAGE_TEXTURE
  | APEX_FLOAT
  | THETA_FLOAT
deriving DecidableEq, Repr

/-- The value of an enumerator. -/
def Parameter.toInt : Parameter → Int
  | .IMAGE_TEXTURE => 0
  | .APEX_FLOAT => 1
  | .THETA_FLOAT => 2

/-- The `switch` of `PageMaterials::getParameterName` on the value of its
argument; `none` is the `nullptr` returned after the `switch`. -/
def getParameterNameOfValue (parameter : Int) : Option String :=
  if parameter = Parameter.IMAGE_TEXTURE.toInt then some "imageTexture"
  else if parameter = Parameter.APEX_FLOAT.toInt then some "apexFloat"
  else if parameter = Parameter.THETA_FLOAT.toInt then some "thetaFloat"
  else none

/-- The function `PageMaterials::getParameterName`. -/
def getParameterName (parameter : Parameter) : Option String :=
  getParameterNameOfValue parameter.toInt

/-- A `PageMaterials` object: it owns the handle of one engine material. -/
structure PageMaterials where
  mMaterial : Nat
deriving DecidableEq

/-! ## PageBuilder -/

/-- The enumeration `PageBuilder::Orientation`. -/
inductive Orientation where
  | LEFT
  | RIGHT
deriving DecidableEq, Repr

/-- The fields of `PageBuilder`, with the default member initialisers of
`PageBuilder.h`. -/
structure PageBuilder where
  mMaterials : Option PageMaterials := none
  mOrientation : Orientation := Orientation.RIGHT
  mSize : float2 := ⟨1, 1⟩
  mCenter : float2 := ⟨1 / 2, 0⟩
  mZOrder : ℚ := 0
  mMeshResolution : int2 := ⟨20, 20⟩
deriving DecidableEq

/-- The constructor `PageBuilder::PageBuilder(PageMaterials* materials)`. -/
def PageBuilder.new (materials : Option PageMaterials) : PageBuilder :=
  { mMaterials := materials }

/-- The setter `PageBuilder::orientation`; the result is `*this`. -/
def PageBuilder.orientation (b : PageBuilder) (orientation : Orientation) : PageBuilder :=
  { b with mOrientation := orientation }

/-- The setter `PageBuilder::size`; the result is `*this`. -/
def PageBuilder.size (b : PageBuilder) (width height : ℚ) : PageBuilder :=
  { b with mSize := ⟨width, height⟩ }

/-- The setter `PageBuilder::zOrder`; the result is `*this`. -/
def PageBuilder.zOrder (b : PageBuilder) (z : ℚ) : PageBuilder :=
  { b with mZOrder := z }

/-- The setter `PageBuilder::center`; the result is `*this`. -/
def PageBuilder.center (b : PageBuilder) (x y : ℚ) : PageBuilder :=
  { b with mCenter := ⟨x, y⟩ }

/-- The setter `PageBuilder::meshResolution`; the result is `*this`. -/
def PageBuilder.meshResolution (b : PageBuilder) (columnCount rowCount : Int) : PageBuilder :=
  { b with mMeshResolution := ⟨columnCount, rowCount⟩ }

/-- One call of a setter, with its arguments. -/
inductive SetterCall where
  | orientation (orientation : Orientation)
  | size (width height : ℚ)
  | zOrder (z : ℚ)
  | center (x y : ℚ)
  | meshResolution (columnCount rowCount : Int)

/-- The builder after one setter call. -/
def SetterCall.apply (b : PageBuilder) : SetterCall → PageBuilder
  | .orientation o => b.orientation o
  | .size w h => b.size w h
  | .zOrder z => b.zOrder z
  | .center x y => b.center x y
  | .meshResolution c r => b.meshResolution c r

/-- The builder after a chain of setter calls. -/
def applySetters (b : PageBuilder) (calls : List SetterCall) : PageBuilder :=
  calls.foldl SetterCall.apply b

/-! ## Loops -/

/-- The loop `for (int i = 0; i < n; i++) body(i)` for a trip count `n`,
threading the state. -/
def forUpTo {σ : Type} : Nat → (Int → σ → σ) → σ → σ
  | 0, _, s => s
  | k + 1, body, s => body (k : Int) (forUpTo k body s)

/-! ## The index loop of `build` -/

/-- The variables the index loop updates: `tindex` and the array `indices`
(elements of type `uint16_t`). -/
structure IndexState where
  tindex : Int
  indices : Mem Int

/-- The lambda `addTriangle`. -/
def addTriangle (s : IndexState) (i j k : Int) : IndexState :=
  { indices :=
      ((s.indices.store (iadd (imul s.tindex 3) 0) (toUInt16 i)).store
        (iadd (imul s.tindex 3) 1) (toUInt16 j)).store
        (iadd (imul s.tindex 3) 2) (toUInt16 k)
    tindex := iadd s.tindex 1 }

/-- The body of the inner index loop for one cell. -/
def indexCell (vertsPerRow row col : Int) (s : IndexState) : IndexState :=
  let a := iadd (iadd col 0) (imul (iadd row 0) vertsPerRow)
  let b := iadd (iadd col 1) (imul (iadd row 0) vertsPerRow)
  let c := iadd (iadd col 0) (imul (iadd row 1) vertsPerRow)
  let d := iadd (iadd col 1) (imul (iadd row 1) vertsPerRow)
  addTriangle (addTriangle s a b d) d c a

/-- The two nested loops `row < numRows`, `col < numColumns` that fill the
index array. -/
def indexLoop (numColumns numRows : Int) (s : IndexState) : IndexState :=
  let vertsPerRow := iadd numColumns 1
  forUpTo numRows.toNat
    (fun row s => forUpTo numColumns.toNat (fun col s => indexCell vertsPerRow row col s) s) s

/-! ## The vertex loop of `build` -/

/-- The variables the vertex loop updates: `vindex` and the arrays
`positions` (elements of type `float3`) and `uvs` (elements of type
`float2`). -/
structure VertexState where
  vindex : Int
  positions : Mem float3
  uvs : Mem float2

/-- The lambda `addVertex`. -/
def addVertex (cv : ScalarConv) (s : VertexState) (x y z u v : ℚ) : VertexState :=
  { positions :=
      ((s.positions.store (iadd (imul s.vindex 3) 0) (cv.toFloat3 x)).store
        (iadd (imul s.vindex 3) 1) (cv.toFloat3 y)).store
        (iadd (imul s.vindex 3) 2) (cv.toFloat3 z)
    uvs :=
      (s.uvs.store (iadd (imul s.vindex 2) 0) (cv.toFloat2 u)).store
        (iadd (imul s.vindex 2) 1) (cv.toFloat2 v)
    vindex := iadd s.vindex 1 }

/-- The local `u` of the vertex loop: `(float) col / numColumns`. For
`numColumns = 0` the quotient of `ℚ` is 0, where the source gets a NaN or an
infinity. -/
def gridU (b : PageBuilder) (col : Int) : ℚ := (col : ℚ) / (b.mMeshResolution.x : ℚ)

/-- The local `v` of the vertex loop: `(float) row / numRows`. For
`numRows = 0` the quotient of `ℚ` is 0, where the source gets a NaN or an
infinity. -/
def gridV (b : PageBuilder) (row : Int) : ℚ := (row : ℚ) / (b.mMeshResolution.y : ℚ)

/-- The local `x` of the vertex loop: `u * mSize.x + mCenter.x - mSize.x / 2.0f`. -/
def gridX (b : PageBuilder) (col : Int) : ℚ :=
  gridU b col * b.mSize.x + b.mCenter.x - b.mSize.x / 2

/-- The local `y` of the vertex loop: `v * mSize.y + mCenter.y - mSize.y / 2.0f`. -/
def gridY (b : PageBuilder) (row : Int) : ℚ :=
  gridV b row * b.mSize.y + b.mCenter.y - b.mSize.y / 2

/-- The body of the inner vertex loop for one grid point. -/
def vertexPoint (cv : ScalarConv) (b : PageBuilder) (row col : Int) (s : VertexState) :
    VertexState :=
  addVertex cv s (gridX b col) (gridY b row) b.mZOrder (gridU b col) (gridV b row)

/-- The two nested loops `row <= numRows`, `col <= numColumns` that fill the
position and UV arrays. The trip count of `i <= n` is `n + 1` (zero for
negative `n`); for `n = INT_MAX` the condition of the source never fails, a
case the embedding does not cover. -/
def vertexLoop (cv : ScalarConv) (b : PageBuilder) (s : VertexState) : VertexState :=
  forUpTo (b.mMeshResolution.y + 1).toNat
    (fun row s =>
      forUpTo (b.mMeshResolution.x + 1).toNat (fun col s => vertexPoint cv b row col s) s) s

/-! ## build -/

/-- The local `numCells` of `build`. -/
def numCells (b : PageBuilder) : Int := imul b.mMeshResolution.x b.mMeshResolution.y

/-- The local `numIndices` of `build`. -/
def numIndices (b : PageBuilder) : Int := imul (numCells b) 6

/-- The local `numVertices` of `build`. -/
def numVertices (b : PageBuilder) : Int :=
  imul (iadd b.mMeshResolution.x 1) (iadd b.mMeshResolution.y 1)

/-- The guard of `build`: true when `build` returns `nullptr` at once. -/
def guardFails (b : PageBuilder) : Bool :=
  b.mMaterials.isNone || decide (numIndices b > 65535)

/-- The local `indexBufferSize` of `build`. -/
def indexBufferSize (b : PageBuilder) : Int := imul (numIndices b) 8

/-- The local `posBufferSize` of `build`: the product is taken in `size_t`
and converted to `int`, which keeps its low 32 bits. -/
def posBufferSize (b : PageBuilder) : Int := wrap32 (numVertices b * sizeofFloat3)

/-- The local `uvBufferSize` of `build`: the product is taken in `size_t`
and converted to `int`, which keeps its low 32 bits. -/
def uvBufferSize (b : PageBuilder) : Int := wrap32 (numVertices b * sizeofFloat2)

/-- The local `tanBufferSize` of `build`. -/
def tanBufferSize (b : PageBuilder) : Int := imul (numVertices b) 8

/-- What a run of `build` that gets past the guard hands to the engine,
together with the final values of the two counters. The index array is
handed over at line 112, between the index loop and the vertex loop; the
three vertex arrays at lines 152 to 159, after the vertex loop. -/
structure Page where
  /-- Argument of `IndexBuffer::Builder().indexCount`. -/
  indexCount : Int
  /-- The descriptor `ib` as given to `setBuffer` at line 112: the stores the
  index loop has made through `indices`, and `indexBufferSize`. -/
  ib : BufferDescriptor Int
  /-- Argument of `VertexBuffer::Builder().vertexCount`. -/
  vertexCount : Int
  /-- The descriptor `pbd` given to `setBufferAt(engine, 0, _)`: the stores
  the vertex loop has made through `positions`, and `posBufferSize`. -/
  pbd : BufferDescriptor float3
  /-- The descriptor `ubd` given to `setBufferAt(engine, 1, _)`: the stores
  the vertex loop has made through `uvs`, and `uvBufferSize`. -/
  ubd : BufferDescriptor float2
  /-- The descriptor `tbd` given to `setBufferAt(engine, 2, _)`: the stores
  made through `tangents`, of which `build` has none, and `tanBufferSize`. -/
  tbd : BufferDescriptor Int
  /-- The provider the material instance was created from. -/
  material : PageMaterials
  /-- Value of `tindex` after the index loop. -/
  tindex : Int
  /-- Value of `vindex` after the vertex loop. -/
  vindex : Int

/-- The part of `build` after the guard, for the provider `materials` that
`mMaterials` points to. The pointer `tangents` is used by `malloc` and by the
descriptor `tbd` only; `addTriangle` captures `indices`, `addVertex` captures
`positions` and `uvs`. -/
def buildPage (cv : ScalarConv) (b : PageBuilder) (materials : PageMaterials) : Page :=
  let tangents : Mem Int := Mem.fresh
  let is := indexLoop b.mMeshResolution.x b.mMeshResolution.y ⟨0, Mem.fresh⟩
  let vs := vertexLoop cv b ⟨0, Mem.fresh, Mem.fresh⟩
  { indexCount := numIndices b
    ib := ⟨is.indices, indexBufferSize b⟩
    vertexCount := numVertices b
    pbd := ⟨vs.positions, posBufferSize b⟩
    ubd := ⟨vs.uvs, uvBufferSize b⟩
    tbd := ⟨tangents, tanBufferSize b⟩
    material := materials
    tindex := is.tindex
    vindex := vs.vindex }

/-- The method `PageBuilder::build`; `none` is the `nullptr` result. The
builder itself is only read. -/
def build (cv : ScalarConv) (b : PageBuilder) : Option Page :=
  match b.mMaterials with
  | none => none
  | some materials =>
    if numIndices b > 65535 then none else some (buildPage cv b materials)

/-- Entry `k` of the array a descriptor hands over, for elements of
`elemSize` bytes: the stored element when the entry lies within the first
`size` bytes, `none` when it does not or when nothing was stored there. -/
def BufferDescriptor.entry {α : Type} (d : BufferDescriptor α) (elemSize : Int) (k : Int) :
    Option α :=
  if 0 ≤ k ∧ (k + 1) * elemSize ≤ d.size then d.buffer k else none

/-! ## Concrete configurations -/

/-- A 20000 x 20000 grid on a builder with a provider. -/
def hugeGrid : PageBuilder := (PageBuilder.new (some ⟨0⟩)).meshResolution 20000 20000

/-- A grid of one column and 357913942 rows on a builder with a provider. -/
def tallGrid : PageBuilder := (PageBuilder.new (some ⟨0⟩)).meshResolution 1 357913942

/-- The configuration `meshResolution(1, 1)`, `size(2, 2)`, `center(0, 0)`,
`zOrder(0)` on a builder with a provider. -/
def unitGrid : PageBuilder :=
  ((((PageBuilder.new (some ⟨0⟩)).meshResolution 1 1).size 2 2).center 0 0).zOrder 0

/-- The configuration `meshResolution(1, 1)` with the default size and
center, on a builder with a provider. -/
def unitCell : PageBuilder := (PageBuilder.new (some ⟨0⟩)).meshResolution 1 1

/-- The default configuration on a builder with a provider. -/
def defaultGrid : PageBuilder := PageBuilder.new (some ⟨0⟩)

/-- A 3 x 2 grid on a builder with a provider. -/
def smallGrid : PageBuilder := (PageBuilder.new (some ⟨7⟩)).meshResolution 3 2

/-- The configuration `meshResolution(0, 0)` on a builder with a provider. -/
def zeroGrid : PageBuilder := (PageBuilder.new (some ⟨0⟩)).meshResolution 0 0

/-- The configuration `meshResolution(-1, -1)` on a builder with a provider. -/
def negativeGrid : PageBuilder := (PageBuilder.new (some ⟨0⟩)).meshResolution (-1) (-1)

/-! ## Bounds of an allocation, corner indices, divisions -/

/-- Element index `k` lies inside an array of `size` bytes whose elements
take `elemSize` bytes. The size of a descriptor is the size `build` passed to
`malloc` for the array. -/
def BufferDescriptor.inBounds {α : Type} (d : BufferDescriptor α) (elemSize : Int) (k : Int) :
    Prop :=
  0 ≤ k ∧ (k + 1) * elemSize ≤ d.size

/-- The corner index `(col + i) + (row + j) * vertsPerRow` as the index loop
computes it; `a`, `b`, `c`, `d` are the corners `(0, 0)`, `(1, 0)`, `(0, 1)`,
`(1, 1)`. -/
def cornerIndex (vertsPerRow row col i j : Int) : Int :=
  iadd (iadd col i) (imul (iadd row j) vertsPerRow)

/-- The division of one `float` by another: `none` when the divisor is zero,
where the source gets a NaN or an infinity and the quotient of `ℚ` is 0. -/
def floatDiv (a b : ℚ) : Option ℚ := if b = 0 then none else some (a / b)

/-- The six index entries of cell `(col, row)` in an index array `m` for a
grid of `columns` columns: triangle `(a, b, d)` then triangle `(d, c, a)` at
offset `6 * (row * columns + col)`. -/
def cellEntries (columns row col : Int) (m : Mem Int) : Prop :=
  m (6 * (row * columns + col)) = some (col + row * (columns + 1)) ∧
  m (6 * (row * columns + col) + 1) = some ((col + 1) + row * (columns + 1)) ∧
  m (6 * (row * columns + col) + 2) = some ((col + 1) + (row + 1) * (columns + 1)) ∧
  m (6 * (row * columns + col) + 3) = some ((col + 1) + (row + 1) * (columns + 1)) ∧
  m (6 * (row * columns + col) + 4) = some (col + (row + 1) * (columns + 1)) ∧
  m (6 * (row * columns + col) + 5) = some (col + row * (columns + 1))

/-- State of the index loop when the cells before `(j, row0)` in row-major
order have been emitted. -/
def IndexInv (columns row0 j : Int) (s : IndexState) : Prop :=
  s.tindex = 2 * (row0 * columns + j) ∧
  (∀ k : Int, (k < 0 ∨ 6 * (row0 * columns + j) ≤ k) → s.indices k = none) ∧
  (∀ row col : Int, 0 ≤ row → 0 ≤ col → col < columns →
    (row < row0 ∨ (row = row0 ∧ col < j)) → cellEntries columns row col s.indices)

/-- The five stores `addVertex` makes for grid point `(col, row)`, whose
vertex index is `row * (columns + 1) + col`: three elements of `positions`
and two elements of `uvs`. -/
def pointEntries (cv : ScalarConv) (b : PageBuilder) (row col : Int) (s : VertexState) : Prop :=
  s.positions (3 * (row * (b.mMeshResolution.x + 1) + col)) = some (cv.toFloat3 (gridX b col)) ∧
  s.positions (3 * (row * (b.mMeshResolution.x + 1) + col) + 1) =
    some (cv.toFloat3 (gridY b row)) ∧
  s.positions (3 * (row * (b.mMeshResolution.x + 1) + col) + 2) =
    some (cv.toFloat3 b.mZOrder) ∧
  s.uvs (2 * (row * (b.mMeshResolution.x + 1) + col)) = some (cv.toFloat2 (gridU b col)) ∧
  s.uvs (2 * (row * (b.mMeshResolution.x + 1) + col) + 1) = some (cv.toFloat2 (gridV b row))

/-- State of the vertex loop when the grid points before `(j, row0)` in
row-major order have been emitted. -/
def VertexInv (cv : ScalarConv) (b : PageBuilder) (row0 j : Int) (s : VertexState) : Prop :=
  s.vindex = row0 * (b.mMeshResolution.x + 1) + j ∧
  (∀ k : Int, (k < 0 ∨ 3 * (row0 * (b.mMeshResolution.x + 1) + j) ≤ k) →
    s.positions k = none) ∧
  (∀ k : Int, (k < 0 ∨ 2 * (row0 * (b.mMeshResolution.x + 1) + j) ≤ k) → s.uvs k = none) ∧
  (∀ row col : Int, 0 ≤ row → 0 ≤ col → col ≤ b.mMeshResolution.x →
    (row < row0 ∨ (row = row0 ∧ col < j)) → pointEntries cv b row col s)

/-! ## Machine arithmetic without overflow -/

/-- A value in the range of `int` is not changed by the reduction. -/
theorem wrap32_eq_self (x : Int) (h1 : -2147483648 ≤ x) (h2 : x ≤ 2147483647) :
    wrap32 x = x := by
  unfold wrap32
  omega

/-- An `int` sum that does not overflow is the exact sum. -/
theorem iadd_eq (a b : Int) (h1 : -2147483648 ≤ a + b) (h2 : a + b ≤ 2147483647) :
    iadd a b = a + b := wrap32_eq_self _ h1 h2

/-- An `int` product that does not overflow is the exact product. -/
theorem imul_eq (a b : Int) (h1 : -2147483648 ≤ a * b) (h2 : a * b ≤ 2147483647) :
    imul a b = a * b := wrap32_eq_self _ h1 h2

/-- A value in the range of `uint16_t` is stored unchanged. -/
theorem toUInt16_eq_self (x : Int) (h1 : 0 ≤ x) (h2 : x ≤ 65535) : toUInt16 x = x := by
  unfold toUInt16
  omega

/-- Reading the element just stored. -/
theorem Mem.store_self {α : Type} (m : Mem α) (i : Int) (v : α) : (m.store i v) i = some v := by
  simp [Mem.store]

/-- A store leaves the other elements alone. -/
theorem Mem.store_ne {α : Type} (m : Mem α) (i j : Int) (v : α) (h : j ≠ i) :
    (m.store i v) j = m j := by
  simp [Mem.store, h]

/-- What `addTriangle` does when neither the element index nor the values
overflow. -/
theorem addTriangle_exact (s : IndexState) (t i j k : Int) (hs : s.tindex = t)
    (ht : 0 ≤ t) (ht2 : t ≤ 100000)
    (hi : 0 ≤ i ∧ i ≤ 65535) (hj : 0 ≤ j ∧ j ≤ 65535) (hk : 0 ≤ k ∧ k ≤ 65535) :
    addTriangle s i j k =
      ⟨t + 1, ((s.indices.store (3 * t) i).store (3 * t + 1) j).store (3 * t + 2) k⟩ := by
  have e3 : imul t 3 = 3 * t := by rw [imul_eq] <;> omega
  unfold addTriangle
  rw [hs, e3, iadd_eq _ _ (by omega) (by omega), iadd_eq _ _ (by omega) (by omega),
    iadd_eq _ _ (by omega) (by omega), iadd_eq _ _ (by omega) (by omega),
    toUInt16_eq_self i hi.1 hi.2, toUInt16_eq_self j hj.1 hj.2, toUInt16_eq_self k hk.1 hk.2]
  simp

/-! ## The index loop -/

/-- The corner index `(col + i) + (row + j) * vertsPerRow` of the index loop
is computed without overflow when the largest corner index of the cell fits. -/
theorem corner_exact (columns row col i j : Int)
    (hrow : 0 ≤ row) (hcol : 0 ≤ col) (hcolumns : 0 ≤ columns)
    (hi : 0 ≤ i ∧ i ≤ 1) (hj : 0 ≤ j ∧ j ≤ 1)
    (hd : (col + 1) + (row + 1) * (columns + 1) ≤ 65535) :
    iadd (iadd col i) (imul (iadd row j) (columns + 1)) = (col + i) + (row + j) * (columns + 1) ∧
    0 ≤ (col + i) + (row + j) * (columns + 1) ∧
    (col + i) + (row + j) * (columns + 1) ≤ 65535 := by
  have hP : 0 ≤ row * (columns + 1) := mul_nonneg hrow (by omega)
  have hR : row ≤ row * (columns + 1) := by nlinarith
  have hQ : (row + 1) * (columns + 1) = row * (columns + 1) + columns + 1 := by ring
  have hQj : (row + j) * (columns + 1) = row * (columns + 1) + j * (columns + 1) := by ring
  have hJ : 0 ≤ j * (columns + 1) ∧ j * (columns + 1) ≤ columns + 1 := by
    rcases hj with ⟨h0, h1⟩
    have : j = 0 ∨ j = 1 := by omega
    rcases this with rfl | rfl <;> simp <;> omega
  have e1 : iadd col i = col + i := by rw [iadd_eq] <;> omega
  have e2 : iadd row j = row + j := by rw [iadd_eq] <;> omega
  have e3 : imul (row + j) (columns + 1) = (row + j) * (columns + 1) := by
    rw [imul_eq] <;> omega
  rw [e1, e2, e3]
  refine ⟨?_, by omega, by omega⟩
  rw [iadd_eq] <;> omega

/-- What the body of the index loop does for cell `(col, row)`, the `n`-th
cell, when nothing overflows: it writes the six entries at offset `6 * n` and
advances `tindex` by two. -/
theorem indexCell_exact (columns row col n : Int) (s : IndexState)
    (hs : s.tindex = 2 * n) (hn : 0 ≤ n) (hn2 : n ≤ 10922)
    (hrow : 0 ≤ row) (hcol : 0 ≤ col) (hcolumns : 0 ≤ columns)
    (hd : (col + 1) + (row + 1) * (columns + 1) ≤ 65535) :
    indexCell (columns + 1) row col s =
      ⟨2 * (n + 1),
        ((((((s.indices.store (6 * n) (col + row * (columns + 1))).store
          (6 * n + 1) ((col + 1) + row * (columns + 1))).store
          (6 * n + 2) ((col + 1) + (row + 1) * (columns + 1))).store
          (6 * n + 3) ((col + 1) + (row + 1) * (columns + 1))).store
          (6 * n + 4) (col + (row + 1) * (columns + 1))).store
          (6 * n + 5) (col + row * (columns + 1)))⟩ := by
  obtain ⟨ea, ha0, ha1⟩ := corner_exact columns row col 0 0 hrow hcol hcolumns
    (by omega) (by omega) hd
  obtain ⟨eb, hb0, hb1⟩ := corner_exact columns row col 1 0 hrow hcol hcolumns
    (by omega) (by omega) hd
  obtain ⟨ec, hc0, hc1⟩ := corner_exact columns row col 0 1 hrow hcol hcolumns
    (by omega) (by omega) hd
  obtain ⟨ed, hd0, hd1⟩ := corner_exact columns row col 1 1 hrow hcol hcolumns
    (by omega) (by omega) hd
  unfold indexCell
  simp only [ea, eb, ec, ed]
  rw [addTriangle_exact s (2 * n) _ _ _ hs (by omega) (by omega) ⟨ha0, ha1⟩ ⟨hb0, hb1⟩ ⟨hd0, hd1⟩,
    addTriangle_exact _ (2 * n + 1) _ _ _ rfl (by omega) (by omega) ⟨hd0, hd1⟩ ⟨hc0, hc1⟩
      ⟨ha0, ha1⟩]
  have i0 : 3 * (2 * n) = 6 * n := by ring
  have i1 : 3 * (2 * n + 1) = 6 * n + 3 := by ring
  have i2 : 6 * n + 3 + 1 = 6 * n + 4 := by ring
  have i3 : 6 * n + 3 + 2 = 6 * n + 5 := by ring
  have i4 : 2 * n + 1 + 1 = 2 * (n + 1) := by ring
  simp only [i0, i1, i2, i3, i4, add_zero]

/-- One step of the inner index loop keeps the invariant. -/
theorem indexInv_step (columns rows row0 j : Int) (s : IndexState)
    (hcolumns : 0 < columns) (hlimit : columns * rows * 6 ≤ 65535)
    (hrow0 : 0 ≤ row0) (hrow1 : row0 < rows) (hj0 : 0 ≤ j) (hj1 : j < columns)
    (h : IndexInv columns row0 j s) :
    IndexInv columns row0 (j + 1) (indexCell (columns + 1) row0 j s) := by
  obtain ⟨ht, hnone, hcells⟩ := h
  -- arithmetic facts, with the products as atoms
  have hA : (row0 + 1) * columns ≤ rows * columns :=
    mul_le_mul_of_nonneg_right (by omega) (by omega)
  have hB : 0 ≤ row0 * columns := mul_nonneg hrow0 (by omega)
  have hC : rows ≤ rows * columns := by nlinarith
  have e1 : (row0 + 1) * columns = row0 * columns + columns := by ring
  have e2 : (row0 + 1) * (columns + 1) = row0 * columns + row0 + columns + 1 := by ring
  have e3 : columns * rows = rows * columns := by ring
  have hn2 : row0 * columns + j ≤ 10922 := by omega
  have hd : (j + 1) + (row0 + 1) * (columns + 1) ≤ 65535 := by omega
  rw [indexCell_exact columns row0 j (row0 * columns + j) s ht (by omega) hn2 hrow0 hj0
    (by omega) hd]
  refine ⟨by simp only []; ring, ?_, ?_⟩
  · intro k hk
    have hk2 : k < 0 ∨ 6 * (row0 * columns + j) + 6 ≤ k := by
      rcases hk with hk | hk
      · exact Or.inl hk
      · right; linarith
    simp only []
    rw [Mem.store_ne _ _ _ _ (by omega), Mem.store_ne _ _ _ _ (by omega),
      Mem.store_ne _ _ _ _ (by omega), Mem.store_ne _ _ _ _ (by omega),
      Mem.store_ne _ _ _ _ (by omega), Mem.store_ne _ _ _ _ (by omega)]
    exact hnone k (by omega)
  · intro row col hr hc hc2 hlex
    simp only []
    by_cases hnew : row = row0 ∧ col = j
    · obtain ⟨rfl, rfl⟩ := hnew
      refine ⟨?_, ?_, ?_, ?_, ?_, ?_⟩
      · rw [Mem.store_ne _ _ _ _ (by omega), Mem.store_ne _ _ _ _ (by omega),
          Mem.store_ne _ _ _ _ (by omega), Mem.store_ne _ _ _ _ (by omega),
          Mem.store_ne _ _ _ _ (by omega), Mem.store_self]
      · rw [Mem.store_ne _ _ _ _ (by omega), Mem.store_ne _ _ _ _ (by omega),
          Mem.store_ne _ _ _ _ (by omega), Mem.store_ne _ _ _ _ (by omega), Mem.store_self]
      · rw [Mem.store_ne _ _ _ _ (by omega), Mem.store_ne _ _ _ _ (by omega),
          Mem.store_ne _ _ _ _ (by omega), Mem.store_self]
      · rw [Mem.store_ne _ _ _ _ (by omega), Mem.store_ne _ _ _ _ (by omega), Mem.store_self]
      · rw [Mem.store_ne _ _ _ _ (by omega), Mem.store_self]
      · rw [Mem.store_self]
    · have hold : row < row0 ∨ (row = row0 ∧ col < j) := by omega
      have hlt : row * columns + col < row0 * columns + j := by
        rcases hold with h1 | ⟨h1, h2⟩
        · have : (row + 1) * columns ≤ row0 * columns :=
            mul_le_mul_of_nonneg_right (by omega) (by omega)
          have e4 : (row + 1) * columns = row * columns + columns := by ring
          omega
        · rw [h1]; omega
      obtain ⟨c0, c1, c2, c3, c4, c5⟩ := hcells row col hr hc hc2 hold
      refine ⟨?_, ?_, ?_, ?_, ?_, ?_⟩ <;>
        rw [Mem.store_ne _ _ _ _ (by omega), Mem.store_ne _ _ _ _ (by omega),
          Mem.store_ne _ _ _ _ (by omega), Mem.store_ne _ _ _ _ (by omega),
          Mem.store_ne _ _ _ _ (by omega), Mem.store_ne _ _ _ _ (by omega)] <;> assumption

/-- The inner index loop keeps the invariant over its first `j` columns. -/
theorem indexInv_inner (columns rows row0 : Int) (s : IndexState)
    (hcolumns : 0 < columns) (hlimit : columns * rows * 6 ≤ 65535)
    (hrow0 : 0 ≤ row0) (hrow1 : row0 < rows) (h : IndexInv columns row0 0 s) (j : Nat)
    (hj : (j : Int) ≤ columns) :
    IndexInv columns row0 j (forUpTo j (fun col s => indexCell (columns + 1) row0 col s) s) := by
  induction j with
  | zero => simpa [forUpTo] using h
  | succ k ih =>
    have hk : (k : Int) < columns := by push_cast at hj; omega
    have := indexInv_step columns rows row0 k _ hcolumns hlimit hrow0 hrow1 (by omega) hk
      (ih (by omega))
    simpa [forUpTo] using this

/-- The end of a row is the start of the next one. -/
theorem indexInv_next_row (columns row0 : Int) (s : IndexState)
    (h : IndexInv columns row0 columns s) : IndexInv columns (row0 + 1) 0 s := by
  obtain ⟨ht, hnone, hcells⟩ := h
  have e : (row0 + 1) * columns + 0 = row0 * columns + columns := by ring
  refine ⟨by rw [e]; exact ht, ?_, ?_⟩
  · intro k hk
    rw [e] at hk
    exact hnone k hk
  · intro row col hr hc hc2 hlex
    exact hcells row col hr hc hc2 (by omega)

/-- The nested index loops keep the invariant over the first `i` rows. -/
theorem indexInv_outer (columns rows : Int) (hcolumns : 0 < columns)
    (hlimit : columns * rows * 6 ≤ 65535) (i : Nat) (hi : (i : Int) ≤ rows) :
    IndexInv columns i 0
      (forUpTo i
        (fun row s => forUpTo columns.toNat (fun col s => indexCell (columns + 1) row col s) s)
        ⟨0, Mem.fresh⟩) := by
  induction i with
  | zero =>
    refine ⟨by simp [forUpTo], ?_, ?_⟩
    · intro k _
      rfl
    · intro row col hr _ _ hlex
      simp at hlex
      omega
  | succ k ih =>
    have hk : (k : Int) < rows := by push_cast at hi; omega
    have h1 := indexInv_inner columns rows k _ hcolumns hlimit (by omega) hk (ih (by omega))
      columns.toNat (by rw [Int.toNat_of_nonneg (by omega)])
    rw [Int.toNat_of_nonneg (by omega)] at h1
    have h2 := indexInv_next_row columns k _ h1
    simpa [forUpTo] using h2

/-- The state after the index loop of a grid within the index limit. -/
theorem indexLoop_inv (columns rows : Int) (hcolumns : 0 < columns) (hrows : 0 < rows)
    (hlimit : columns * rows * 6 ≤ 65535) :
    IndexInv columns rows 0 (indexLoop columns rows ⟨0, Mem.fresh⟩) := by
  have hC : columns ≤ columns * rows := by nlinarith
  have e : iadd columns 1 = columns + 1 := by rw [iadd_eq] <;> omega
  have := indexInv_outer columns rows hcolumns hlimit rows.toNat
    (by rw [Int.toNat_of_nonneg (by omega)])
  rw [Int.toNat_of_nonneg (by omega)] at this
  unfold indexLoop
  rw [e]
  exact this

/-! ## The vertex loop -/

/-- What `addVertex` does when the element indices do not overflow. -/
theorem addVertex_exact (cv : ScalarConv) (s : VertexState) (n : Int) (x y z u v : ℚ)
    (hs : s.vindex = n) (hn : 0 ≤ n) (hn2 : n ≤ 100000) :
    addVertex cv s x y z u v =
      ⟨n + 1,
        ((s.positions.store (3 * n) (cv.toFloat3 x)).store (3 * n + 1) (cv.toFloat3 y)).store
          (3 * n + 2) (cv.toFloat3 z),
        (s.uvs.store (2 * n) (cv.toFloat2 u)).store (2 * n + 1) (cv.toFloat2 v)⟩ := by
  have e3 : imul n 3 = 3 * n := by rw [imul_eq] <;> omega
  have e2 : imul n 2 = 2 * n := by rw [imul_eq] <;> omega
  unfold addVertex
  rw [hs, e3, e2, iadd_eq _ _ (by omega) (by omega), iadd_eq _ _ (by omega) (by omega),
    iadd_eq _ _ (by omega) (by omega), iadd_eq _ _ (by omega) (by omega),
    iadd_eq _ _ (by omega) (by omega), iadd_eq _ _ (by omega) (by omega)]
  simp

/-- One step of the inner vertex loop keeps the invariant. -/
theorem vertexInv_step (cv : ScalarConv) (b : PageBuilder) (row0 j : Int) (s : VertexState)
    (hcolumns : 0 < b.mMeshResolution.x) (hrows : 0 < b.mMeshResolution.y)
    (hlimit : b.mMeshResolution.x * b.mMeshResolution.y * 6 ≤ 65535)
    (hrow0 : 0 ≤ row0) (hrow1 : row0 ≤ b.mMeshResolution.y)
    (hj0 : 0 ≤ j) (hj1 : j ≤ b.mMeshResolution.x)
    (h : VertexInv cv b row0 j s) :
    VertexInv cv b row0 (j + 1) (vertexPoint cv b row0 j s) := by
  obtain ⟨ht, hnoneP, hnoneU, hpts⟩ := h
  have hA : row0 * (b.mMeshResolution.x + 1) ≤ b.mMeshResolution.y * (b.mMeshResolution.x + 1) :=
    mul_le_mul_of_nonneg_right hrow1 (by omega)
  have hB : 0 ≤ row0 * (b.mMeshResolution.x + 1) := mul_nonneg hrow0 (by omega)
  have hC : b.mMeshResolution.y ≤ b.mMeshResolution.y * b.mMeshResolution.x := by nlinarith
  have hD : b.mMeshResolution.x ≤ b.mMeshResolution.y * b.mMeshResolution.x := by nlinarith
  have e1 : b.mMeshResolution.y * (b.mMeshResolution.x + 1) =
      b.mMeshResolution.y * b.mMeshResolution.x + b.mMeshResolution.y := by ring
  have e3 : b.mMeshResolution.x * b.mMeshResolution.y =
      b.mMeshResolution.y * b.mMeshResolution.x := by ring
  unfold vertexPoint
  rw [addVertex_exact cv s (row0 * (b.mMeshResolution.x + 1) + j) _ _ _ _ _ ht (by omega)
    (by omega)]
  refine ⟨by simp only []; ring, ?_, ?_, ?_⟩
  · intro k hk
    have hk2 : k < 0 ∨ 3 * (row0 * (b.mMeshResolution.x + 1) + j) + 3 ≤ k := by
      rcases hk with hk | hk
      · exact Or.inl hk
      · right; linarith
    simp only []
    rw [Mem.store_ne _ _ _ _ (by omega), Mem.store_ne _ _ _ _ (by omega),
      Mem.store_ne _ _ _ _ (by omega)]
    exact hnoneP k (by omega)
  · intro k hk
    have hk2 : k < 0 ∨ 2 * (row0 * (b.mMeshResolution.x + 1) + j) + 2 ≤ k := by
      rcases hk with hk | hk
      · exact Or.inl hk
      · right; linarith
    simp only []
    rw [Mem.store_ne _ _ _ _ (by omega), Mem.store_ne _ _ _ _ (by omega)]
    exact hnoneU k (by omega)
  · intro row col hr hc hc2 hlex
    unfold pointEntries
    simp only []
    by_cases hnew : row = row0 ∧ col = j
    · obtain ⟨rfl, rfl⟩ := hnew
      refine ⟨?_, ?_, ?_, ?_, ?_⟩
      · rw [Mem.store_ne _ _ _ _ (by omega), Mem.store_ne _ _ _ _ (by omega), Mem.store_self]
      · rw [Mem.store_ne _ _ _ _ (by omega), Mem.store_self]
      · rw [Mem.store_self]
      · rw [Mem.store_ne _ _ _ _ (by omega), Mem.store_self]
      · rw [Mem.store_self]
    · have hold : row < row0 ∨ (row = row0 ∧ col < j) := by omega
      have hlt : row * (b.mMeshResolution.x + 1) + col <
          row0 * (b.mMeshResolution.x + 1) + j := by
        rcases hold with h1 | ⟨h1, h2⟩
        · have : (row + 1) * (b.mMeshResolution.x + 1) ≤ row0 * (b.mMeshResolution.x + 1) :=
            mul_le_mul_of_nonneg_right (by omega) (by omega)
          have e4 : (row + 1) * (b.mMeshResolution.x + 1) =
              row * (b.mMeshResolution.x + 1) + b.mMeshResolution.x + 1 := by ring
          omega
        · rw [h1]; omega
      obtain ⟨c0, c1, c2, c3, c4⟩ := hpts row col hr hc hc2 hold
      refine ⟨?_, ?_, ?_, ?_, ?_⟩
      · rw [Mem.store_ne _ _ _ _ (by omega), Mem.store_ne _ _ _ _ (by omega),
          Mem.store_ne _ _ _ _ (by omega)]
        exact c0
      · rw [Mem.store_ne _ _ _ _ (by omega), Mem.store_ne _ _ _ _ (by omega),
          Mem.store_ne _ _ _ _ (by omega)]
        exact c1
      · rw [Mem.store_ne _ _ _ _ (by omega), Mem.store_ne _ _ _ _ (by omega),
          Mem.store_ne _ _ _ _ (by omega)]
        exact c2
      · rw [Mem.store_ne _ _ _ _ (by omega), Mem.store_ne _ _ _ _ (by omega)]
        exact c3
      · rw [Mem.store_ne _ _ _ _ (by omega), Mem.store_ne _ _ _ _ (by omega)]
        exact c4

/-- The inner vertex loop keeps the invariant over its first `j` columns. -/
theorem vertexInv_inner (cv : ScalarConv) (b : PageBuilder) (row0 : Int) (s : VertexState)
    (hcolumns : 0 < b.mMeshResolution.x) (hrows : 0 < b.mMeshResolution.y)
    (hlimit : b.mMeshResolution.x * b.mMeshResolution.y * 6 ≤ 65535)
    (hrow0 : 0 ≤ row0) (hrow1 : row0 ≤ b.mMeshResolution.y)
    (h : VertexInv cv b row0 0 s) (j : Nat) (hj : (j : Int) ≤ b.mMeshResolution.x + 1) :
    VertexInv cv b row0 j (forUpTo j (fun col s => vertexPoint cv b row0 col s) s) := by
  induction j with
  | zero => simpa [forUpTo] using h
  | succ k ih =>
    have hk : (k : Int) ≤ b.mMeshResolution.x := by push_cast at hj; omega
    have := vertexInv_step cv b row0 k _ hcolumns hrows hlimit hrow0 hrow1 (by omega) hk
      (ih (by omega))
    simpa [forUpTo] using this

/-- The end of a row of grid points is the start of the next one. -/
theorem vertexInv_next_row (cv : ScalarConv) (b : PageBuilder) (row0 : Int) (s : VertexState)
    (h : VertexInv cv b row0 (b.mMeshResolution.x + 1) s) : VertexInv cv b (row0 + 1) 0 s := by
  obtain ⟨ht, hnoneP, hnoneU, hpts⟩ := h
  have e : (row0 + 1) * (b.mMeshResolution.x + 1) + 0 =
      row0 * (b.mMeshResolution.x + 1) + (b.mMeshResolution.x + 1) := by ring
  refine ⟨by rw [e]; exact ht, ?_, ?_, ?_⟩
  · intro k hk
    rw [e] at hk
    exact hnoneP k hk
  · intro k hk
    rw [e] at hk
    exact hnoneU k hk
  · intro row col hr hc hc2 hlex
    exact hpts row col hr hc hc2 (by omega)

/-- The nested vertex loops keep the invariant over the first `i` rows. -/
theorem vertexInv_outer (cv : ScalarConv) (b : PageBuilder)
    (hcolumns : 0 < b.mMeshResolution.x) (hrows : 0 < b.mMeshResolution.y)
    (hlimit : b.mMeshResolution.x * b.mMeshResolution.y * 6 ≤ 65535)
    (i : Nat) (hi : (i : Int) ≤ b.mMeshResolution.y + 1) :
    VertexInv cv b i 0
      (forUpTo i
        (fun row s =>
          forUpTo (b.mMeshResolution.x + 1).toNat (fun col s => vertexPoint cv b row col s) s)
        ⟨0, Mem.fresh, Mem.fresh⟩) := by
  induction i with
  | zero =>
    refine ⟨by simp [forUpTo], ?_, ?_, ?_⟩
    · intro k _
      rfl
    · intro k _
      rfl
    · intro row col hr _ _ hlex
      simp at hlex
      omega
  | succ k ih =>
    have hk : (k : Int) ≤ b.mMeshResolution.y := by push_cast at hi; omega
    have h1 := vertexInv_inner cv b k _ hcolumns hrows hlimit (by omega) hk (ih (by omega))
      (b.mMeshResolution.x + 1).toNat (by rw [Int.toNat_of_nonneg (by omega)])
    rw [Int.toNat_of_nonneg (by omega)] at h1
    have h2 := vertexInv_next_row cv b k _ h1
    simpa [forUpTo] using h2

/-- The state after the vertex loop of a grid within the index limit. -/
theorem vertexLoop_inv (cv : ScalarConv) (b : PageBuilder)
    (hcolumns : 0 < b.mMeshResolution.x) (hrows : 0 < b.mMeshResolution.y)
    (hlimit : b.mMeshResolution.x * b.mMeshResolution.y * 6 ≤ 65535) :
    VertexInv cv b (b.mMeshResolution.y + 1) 0 (vertexLoop cv b ⟨0, Mem.fresh, Mem.fresh⟩) := by
  have := vertexInv_outer cv b hcolumns hrows hlimit (b.mMeshResolution.y + 1).toNat
    (by rw [Int.toNat_of_nonneg (by omega)])
  rw [Int.toNat_of_nonneg (by omega)] at this
  exact this

/-! ## Counts and the guard -/

/-- The counts `build` computes are the exact products for a positive grid
within the index limit. -/
theorem counts_exact (b : PageBuilder)
    (hcolumns : 0 < b.mMeshResolution.x) (hrows : 0 < b.mMeshResolution.y)
    (hlimit : b.mMeshResolution.x * b.mMeshResolution.y * 6 ≤ 65535) :
    numCells b = b.mMeshResolution.x * b.mMeshResolution.y ∧
    numIndices b = b.mMeshResolution.x * b.mMeshResolution.y * 6 ∧
    numVertices b = (b.mMeshResolution.x + 1) * (b.mMeshResolution.y + 1) := by
  have hC : b.mMeshResolution.y ≤ b.mMeshResolution.x * b.mMeshResolution.y := by nlinarith
  have hD : b.mMeshResolution.x ≤ b.mMeshResolution.x * b.mMeshResolution.y := by nlinarith
  have e1 : (b.mMeshResolution.x + 1) * (b.mMeshResolution.y + 1) =
      b.mMeshResolution.x * b.mMeshResolution.y + b.mMeshResolution.x + b.mMeshResolution.y + 1 := by
    ring
  have h1 : numCells b = b.mMeshResolution.x * b.mMeshResolution.y := by
    unfold numCells
    rw [imul_eq] <;> omega
  have h2 : numIndices b = b.mMeshResolution.x * b.mMeshResolution.y * 6 := by
    unfold numIndices
    rw [h1, imul_eq] <;> omega
  refine ⟨h1, h2, ?_⟩
  unfold numVertices
  rw [iadd_eq _ _ (by omega) (by omega), iadd_eq _ _ (by omega) (by omega), imul_eq] <;> omega

/-- The guard of `build` in terms of `guardFails`. -/
theorem build_eq_none_iff (cv : ScalarConv) (b : PageBuilder) :
    build cv b = none ↔ guardFails b = true := by
  unfold build guardFails
  cases h : b.mMaterials with
  | none => simp
  | some m =>
    by_cases h2 : numIndices b > 65535 <;> simp [h2]

/-- Past the guard `build` returns the page `buildPage` assembles. -/
theorem build_eq_some (cv : ScalarConv) (b : PageBuilder) (materials : PageMaterials)
    (hm : b.mMaterials = some materials) (hn : numIndices b ≤ 65535) :
    build cv b = some (buildPage cv b materials) := by
  unfold build
  rw [hm]
  simp only []
  rw [if_neg (by omega)]

/-- After the index loop exactly the entries at offsets `0 .. 6 * cells - 1`
have been written. -/
theorem indexInv_written (columns rows : Int) (s : IndexState) (hcolumns : 0 < columns)
    (h : IndexInv columns rows 0 s) (k : Int) :
    (s.indices k).isSome = true ↔ 0 ≤ k ∧ k < columns * rows * 6 := by
  obtain ⟨_, hnone, hcells⟩ := h
  have e0 : rows * columns + 0 = columns * rows := by ring
  rw [e0] at hnone
  constructor
  · intro hk
    by_contra hcon
    rw [hnone k (by omega)] at hk
    simp at hk
  · rintro ⟨hk0, hk1⟩
    have hm0 : 0 ≤ k / 6 := Int.ediv_nonneg hk0 (by omega)
    have hm1 : k / 6 < columns * rows := by omega
    have hrow0 : 0 ≤ k / 6 / columns := Int.ediv_nonneg hm0 (by omega)
    have hrow1 : k / 6 / columns < rows := Int.ediv_lt_of_lt_mul hcolumns (by linarith)
    have hcol0 : 0 ≤ k / 6 % columns := Int.emod_nonneg _ (by omega)
    have hcol1 : k / 6 % columns < columns := Int.emod_lt_of_pos _ hcolumns
    have hdiv : k / 6 / columns * columns + k / 6 % columns = k / 6 := by
      rw [mul_comm]
      exact Int.ediv_add_emod _ _
    obtain ⟨c0, c1, c2, c3, c4, c5⟩ := hcells (k / 6 / columns) (k / 6 % columns) hrow0 hcol0
      hcol1 (Or.inl hrow1)
    rw [hdiv] at c0 c1 c2 c3 c4 c5
    have hcase : k = 6 * (k / 6) ∨ k = 6 * (k / 6) + 1 ∨ k = 6 * (k / 6) + 2 ∨
        k = 6 * (k / 6) + 3 ∨ k = 6 * (k / 6) + 4 ∨ k = 6 * (k / 6) + 5 := by omega
    rcases hcase with h | h | h | h | h | h <;> rw [h] <;>
      simp only [c0, c1, c2, c3, c4, c5, Option.isSome_some]

/-! ## Properties of `build`, the setters and `getParameterName` -/

/-- An entry that lies within the size of the descriptor is the element
stored there. -/
theorem BufferDescriptor.entry_of_fits {α : Type} (d : BufferDescriptor α) (elemSize k : Int)
    (h0 : 0 ≤ k) (h : (k + 1) * elemSize ≤ d.size) : d.entry elemSize k = d.buffer k := by
  unfold BufferDescriptor.entry
  rw [if_pos ⟨h0, h⟩]

/-- Beyond the size of the descriptor there is no entry. -/
theorem BufferDescriptor.entry_of_not_fits {α : Type} (d : BufferDescriptor α)
    (elemSize k : Int) (h : d.size < (k + 1) * elemSize) : d.entry elemSize k = none := by
  unfold BufferDescriptor.entry
  rw [if_neg (by omega)]

/-- The index descriptor of the page. -/
theorem buildPage_ib (cv : ScalarConv) (b : PageBuilder) (materials : PageMaterials) :
    (buildPage cv b materials).ib =
      ⟨(indexLoop b.mMeshResolution.x b.mMeshResolution.y ⟨0, Mem.fresh⟩).indices,
        indexBufferSize b⟩ := rfl

/-- The position descriptor of the page. -/
theorem buildPage_pbd (cv : ScalarConv) (b : PageBuilder) (materials : PageMaterials) :
    (buildPage cv b materials).pbd =
      ⟨(vertexLoop cv b ⟨0, Mem.fresh, Mem.fresh⟩).positions, posBufferSize b⟩ := rfl

/-- The UV descriptor of the page. -/
theorem buildPage_ubd (cv : ScalarConv) (b : PageBuilder) (materials : PageMaterials) :
    (buildPage cv b materials).ubd =
      ⟨(vertexLoop cv b ⟨0, Mem.fresh, Mem.fresh⟩).uvs, uvBufferSize b⟩ := rfl

/-- The byte sizes `build` computes for a positive grid within the index
limit. -/
theorem bufferSizes_exact (b : PageBuilder)
    (hcolumns : 0 < b.mMeshResolution.x) (hrows : 0 < b.mMeshResolution.y)
    (hlimit : b.mMeshResolution.x * b.mMeshResolution.y * 6 ≤ 65535) :
    posBufferSize b = (b.mMeshResolution.x + 1) * (b.mMeshResolution.y + 1) * 12 ∧
    uvBufferSize b = (b.mMeshResolution.x + 1) * (b.mMeshResolution.y + 1) * 8 ∧
    tanBufferSize b = (b.mMeshResolution.x + 1) * (b.mMeshResolution.y + 1) * 8 ∧
    indexBufferSize b = b.mMeshResolution.x * b.mMeshResolution.y * 6 * 8 := by
  obtain ⟨_, hI, hV⟩ := counts_exact b hcolumns hrows hlimit
  have hC : b.mMeshResolution.y ≤ b.mMeshResolution.x * b.mMeshResolution.y := by nlinarith
  have hD : b.mMeshResolution.x ≤ b.mMeshResolution.x * b.mMeshResolution.y := by nlinarith
  have e1 : (b.mMeshResolution.x + 1) * (b.mMeshResolution.y + 1) =
      b.mMeshResolution.x * b.mMeshResolution.y + b.mMeshResolution.x + b.mMeshResolution.y + 1 := by
    ring
  unfold posBufferSize uvBufferSize tanBufferSize indexBufferSize sizeofFloat3 sizeofFloat2
  rw [hI, hV]
  refine ⟨?_, ?_, ?_, ?_⟩
  · rw [wrap32_eq_self] <;> omega
  · rw [wrap32_eq_self] <;> omega
  · rw [imul_eq] <;> omega
  · rw [imul_eq] <;> omega

/-- When the products `columns * rows` and `columns * rows * 6` fit in an
`int`, a grid of more than 65535 indices makes `build` return null. -/
theorem build_null_of_index_limit (cv : ScalarConv) (b : PageBuilder)
    (hcells : isInt32 (b.mMeshResolution.x * b.mMeshResolution.y))
    (hfit : isInt32 (b.mMeshResolution.x * b.mMeshResolution.y * 6))
    (hlarge : b.mMeshResolution.x * b.mMeshResolution.y * 6 > 65535) :
    build cv b = none := by
  have h1 : numCells b = b.mMeshResolution.x * b.mMeshResolution.y :=
    imul_eq _ _ hcells.1 hcells.2
  have h2 : numIndices b = b.mMeshResolution.x * b.mMeshResolution.y * 6 := by
    unfold numIndices
    rw [h1]
    exact imul_eq _ _ hfit.1 hfit.2
  unfold build
  cases b.mMaterials with
  | none => rfl
  | some m =>
    simp only []
    rw [if_pos (by omega)]

/-- C2: the code does not return null for every `int` pair whose product
`columns * rows * 6` exceeds 65535. At `meshResolution(20000, 20000)` both
arguments are `int` values and `20000 * 20000 * 6 = 2400000000 > 65535`, but the
`int` product `numCells * 6` wraps to `-1894967296`, the test
`numIndices > 65535` fails and `build` goes on past the guard. -/
theorem build_guard_overflow (cv : ScalarConv) :
    isInt32 20000 ∧ (20000 : Int) * 20000 * 6 > 65535 ∧
    hugeGrid.mMeshResolution = ⟨20000, 20000⟩ ∧
    numCells hugeGrid = 400000000 ∧ numIndices hugeGrid = -1894967296 ∧
    guardFails hugeGrid = false ∧ build cv hugeGrid ≠ none := by
  refine ⟨by decide, by decide, rfl, by decide, by decide, by decide, ?_⟩
  rw [Ne, build_eq_none_iff]
  decide

/-- In a positive grid within the index limit the index array handed to the
engine holds, for every cell `(col, row)`, the entries `a, b, d, d, c, a` at
offset `6 * (row * columns + col)`. -/
theorem index_winding_exact (cv : ScalarConv) (b : PageBuilder) (materials : PageMaterials)
    (hm : b.mMaterials = some materials)
    (hcolumns : 0 < b.mMeshResolution.x) (hrows : 0 < b.mMeshResolution.y)
    (hlimit : b.mMeshResolution.x * b.mMeshResolution.y * 6 ≤ 65535)
    (row col : Int) (hrow : 0 ≤ row ∧ row < b.mMeshResolution.y)
    (hcol : 0 ≤ col ∧ col < b.mMeshResolution.x) :
    ∃ p : Page, build cv b = some p ∧
      p.ib.entry sizeofUInt16 (6 * (row * b.mMeshResolution.x + col)) =
        some (col + row * (b.mMeshResolution.x + 1)) ∧
      p.ib.entry sizeofUInt16 (6 * (row * b.mMeshResolution.x + col) + 1) =
        some ((col + 1) + row * (b.mMeshResolution.x + 1)) ∧
      p.ib.entry sizeofUInt16 (6 * (row * b.mMeshResolution.x + col) + 2) =
        some ((col + 1) + (row + 1) * (b.mMeshResolution.x + 1)) ∧
      p.ib.entry sizeofUInt16 (6 * (row * b.mMeshResolution.x + col) + 3) =
        some ((col + 1) + (row + 1) * (b.mMeshResolution.x + 1)) ∧
      p.ib.entry sizeofUInt16 (6 * (row * b.mMeshResolution.x + col) + 4) =
        some (col + (row + 1) * (b.mMeshResolution.x + 1)) ∧
      p.ib.entry sizeofUInt16 (6 * (row * b.mMeshResolution.x + col) + 5) =
        some (col + row * (b.mMeshResolution.x + 1)) := by
  obtain ⟨_, hI, _⟩ := counts_exact b hcolumns hrows hlimit
  obtain ⟨_, _, _, hS⟩ := bufferSizes_exact b hcolumns hrows hlimit
  have hi := indexLoop_inv b.mMeshResolution.x b.mMeshResolution.y hcolumns hrows hlimit
  obtain ⟨c0, c1, c2, c3, c4, c5⟩ := hi.2.2 row col hrow.1 hcol.1 hcol.2 (Or.inl hrow.2)
  have hA : (row + 1) * b.mMeshResolution.x ≤ b.mMeshResolution.y * b.mMeshResolution.x :=
    mul_le_mul_of_nonneg_right (by omega) (by omega)
  have hB : 0 ≤ row * b.mMeshResolution.x := mul_nonneg hrow.1 (by omega)
  have e1 : (row + 1) * b.mMeshResolution.x = row * b.mMeshResolution.x + b.mMeshResolution.x := by
    ring
  have e2 : b.mMeshResolution.x * b.mMeshResolution.y =
      b.mMeshResolution.y * b.mMeshResolution.x := by ring
  refine ⟨buildPage cv b materials, build_eq_some cv b materials hm (by omega), ?_⟩
  have hfit : ∀ k : Int, k < 6 * (row * b.mMeshResolution.x + col) + 6 →
      (k + 1) * sizeofUInt16 ≤ (buildPage cv b materials).ib.size := by
    intro k hk
    show _ ≤ indexBufferSize b
    rw [hS]
    unfold sizeofUInt16
    omega
  rw [BufferDescriptor.entry_of_fits _ _ _ (by omega) (hfit _ (by omega)),
    BufferDescriptor.entry_of_fits _ _ _ (by omega) (hfit _ (by omega)),
    BufferDescriptor.entry_of_fits _ _ _ (by omega) (hfit _ (by omega)),
    BufferDescriptor.entry_of_fits _ _ _ (by omega) (hfit _ (by omega)),
    BufferDescriptor.entry_of_fits _ _ _ (by omega) (hfit _ (by omega)),
    BufferDescriptor.entry_of_fits _ _ _ (by omega) (hfit _ (by omega))]
  exact ⟨c0, c1, c2, c3, c4, c5⟩

/-- In a positive grid within the index limit, for every grid point
`(col, row)` with vertex index `n = row * (columns + 1) + col` the vertex loop
stores the converted `x`, `y` and `z` in the elements `3 * n`, `3 * n + 1` and
`3 * n + 2` of `positions`, and the converted `u` and `v` in the elements
`2 * n` and `2 * n + 1` of `uvs`. -/
theorem vertex_stores_exact (cv : ScalarConv) (b : PageBuilder) (materials : PageMaterials)
    (hm : b.mMaterials = some materials)
    (hcolumns : 0 < b.mMeshResolution.x) (hrows : 0 < b.mMeshResolution.y)
    (hlimit : b.mMeshResolution.x * b.mMeshResolution.y * 6 ≤ 65535)
    (row col : Int) (hrow : 0 ≤ row ∧ row ≤ b.mMeshResolution.y)
    (hcol : 0 ≤ col ∧ col ≤ b.mMeshResolution.x) :
    ∃ p : Page, build cv b = some p ∧
      p.pbd.buffer (3 * (row * (b.mMeshResolution.x + 1) + col)) =
        some (cv.toFloat3 (gridX b col)) ∧
      p.pbd.buffer (3 * (row * (b.mMeshResolution.x + 1) + col) + 1) =
        some (cv.toFloat3 (gridY b row)) ∧
      p.pbd.buffer (3 * (row * (b.mMeshResolution.x + 1) + col) + 2) =
        some (cv.toFloat3 b.mZOrder) ∧
      p.ubd.buffer (2 * (row * (b.mMeshResolution.x + 1) + col)) =
        some (cv.toFloat2 (gridU b col)) ∧
      p.ubd.buffer (2 * (row * (b.mMeshResolution.x + 1) + col) + 1) =
        some (cv.toFloat2 (gridV b row)) := by
  obtain ⟨_, hI, _⟩ := counts_exact b hcolumns hrows hlimit
  have hv := vertexLoop_inv cv b hcolumns hrows hlimit
  exact ⟨buildPage cv b materials, build_eq_some cv b materials hm (by omega),
    hv.2.2.2 row col hrow.1 hcol.1 hcol.2 (Or.inl (by omega))⟩

/-- The values `u` and `v` the vertex loop computes lie in `[0, 1]`, and are
0 and 1 at the first and last grid line. -/
theorem grid_uv_range (b : PageBuilder)
    (hcolumns : 0 < b.mMeshResolution.x) (hrows : 0 < b.mMeshResolution.y)
    (row col : Int) (hrow : 0 ≤ row ∧ row ≤ b.mMeshResolution.y)
    (hcol : 0 ≤ col ∧ col ≤ b.mMeshResolution.x) :
    0 ≤ gridU b col ∧ gridU b col ≤ 1 ∧ 0 ≤ gridV b row ∧ gridV b row ≤ 1 ∧
    gridU b 0 = 0 ∧ gridU b b.mMeshResolution.x = 1 ∧
    gridV b 0 = 0 ∧ gridV b b.mMeshResolution.y = 1 := by
  have hx : (0 : ℚ) < (b.mMeshResolution.x : ℚ) := by exact_mod_cast hcolumns
  have hy : (0 : ℚ) < (b.mMeshResolution.y : ℚ) := by exact_mod_cast hrows
  have hc0 : (0 : ℚ) ≤ (col : ℚ) := by exact_mod_cast hcol.1
  have hc1 : (col : ℚ) ≤ (b.mMeshResolution.x : ℚ) := by exact_mod_cast hcol.2
  have hr0 : (0 : ℚ) ≤ (row : ℚ) := by exact_mod_cast hrow.1
  have hr1 : (row : ℚ) ≤ (b.mMeshResolution.y : ℚ) := by exact_mod_cast hrow.2
  unfold gridU gridV
  refine ⟨div_nonneg hc0 hx.le, (div_le_one hx).mpr hc1, div_nonneg hr0 hy.le,
    (div_le_one hy).mpr hr1, by simp, div_self (ne_of_gt hx), by simp, div_self (ne_of_gt hy)⟩

/-- C4: the position stream does not hold `(x, y, z)` at the vertex index
of each grid point. With `meshResolution(1, 1)`, `size(2, 2)`, `center(0, 0)`,
`zOrder(0)` the four elements of the position stream are the conversions of
the scalars `-1` (`x` of vertex 0), `-1` (`y` of vertex 0), `0` (`z` of vertex
0) and `1` (`x` of vertex 1): `addVertex` indexes the `float3` array with
`vindex * 3 + k`. Elements 0 and 1 are equal, so they are not `(-1, -1, 0)` and
`(1, -1, 0)`, whatever the conversion is; with the conversion that copies the
scalar, element 0 is `(-1, -1, -1)` and element 3, the vertex of grid point
`(1, 1)`, is `(1, 1, 1)`, not `(-1, -1, 0)` and `(1, 1, 0)`. -/
theorem positions_not_per_vertex (cv : ScalarConv) :
    ∃ p : Page, build cv unitGrid = some p ∧ p.vertexCount = 4 ∧ p.pbd.size = 48 ∧
      p.pbd.entry sizeofFloat3 0 = some (cv.toFloat3 (-1)) ∧
      p.pbd.entry sizeofFloat3 1 = some (cv.toFloat3 (-1)) ∧
      p.pbd.entry sizeofFloat3 2 = some (cv.toFloat3 0) ∧
      p.pbd.entry sizeofFloat3 3 = some (cv.toFloat3 1) ∧
      ¬ (p.pbd.entry sizeofFloat3 0 = some ⟨-1, -1, 0⟩ ∧
         p.pbd.entry sizeofFloat3 1 = some ⟨1, -1, 0⟩) ∧
      (cv = broadcast → p.pbd.entry sizeofFloat3 0 = some ⟨-1, -1, -1⟩ ∧
        p.pbd.entry sizeofFloat3 3 = some ⟨1, 1, 1⟩) := by
  have hv := vertexLoop_inv cv unitGrid (by decide) (by decide) (by decide)
  have hP0 := hv.2.2.2 0 0 (by decide) (by decide) (by decide) (Or.inl (by decide))
  have hP1 := hv.2.2.2 0 1 (by decide) (by decide) (by decide) (Or.inl (by decide))
  unfold pointEntries at hP0 hP1
  have hx0 : gridX unitGrid 0 = -1 := by
    norm_num [gridX, gridU, unitGrid, PageBuilder.new, PageBuilder.meshResolution,
      PageBuilder.size, PageBuilder.center, PageBuilder.zOrder]
  have hy0 : gridY unitGrid 0 = -1 := by
    norm_num [gridY, gridV, unitGrid, PageBuilder.new, PageBuilder.meshResolution,
      PageBuilder.size, PageBuilder.center, PageBuilder.zOrder]
  have hx1 : gridX unitGrid 1 = 1 := by
    norm_num [gridX, gridU, unitGrid, PageBuilder.new, PageBuilder.meshResolution,
      PageBuilder.size, PageBuilder.center, PageBuilder.zOrder]
  have hz : unitGrid.mZOrder = 0 := rfl
  have hw : unitGrid.mMeshResolution.x = 1 := rfl
  have i0 : (3 : Int) * (0 * (1 + 1) + 0) = 0 := by decide
  have i1 : (0 : Int) + 1 = 1 := by decide
  have i2 : (0 : Int) + 2 = 2 := by decide
  have i3 : (3 : Int) * (0 * (1 + 1) + 1) = 3 := by decide
  rw [hw, hx0, hy0, hz, i0, i1, i2] at hP0
  rw [hw, hx1, i3] at hP1
  obtain ⟨a0, a1, a2, _, _⟩ := hP0
  obtain ⟨b0, _, _, _, _⟩ := hP1
  have hs : posBufferSize unitGrid = 48 := by decide
  have e0 : (buildPage cv unitGrid ⟨0⟩).pbd.entry sizeofFloat3 0 = some (cv.toFloat3 (-1)) := by
    rw [buildPage_pbd, BufferDescriptor.entry_of_fits _ _ _ (by decide)
      (by show _ ≤ posBufferSize unitGrid; rw [hs]; decide)]
    dsimp only
    exact a0
  have e1 : (buildPage cv unitGrid ⟨0⟩).pbd.entry sizeofFloat3 1 = some (cv.toFloat3 (-1)) := by
    rw [buildPage_pbd, BufferDescriptor.entry_of_fits _ _ _ (by decide)
      (by show _ ≤ posBufferSize unitGrid; rw [hs]; decide)]
    dsimp only
    exact a1
  have e2 : (buildPage cv unitGrid ⟨0⟩).pbd.entry sizeofFloat3 2 = some (cv.toFloat3 0) := by
    rw [buildPage_pbd, BufferDescriptor.entry_of_fits _ _ _ (by decide)
      (by show _ ≤ posBufferSize unitGrid; rw [hs]; decide)]
    dsimp only
    exact a2
  have e3 : (buildPage cv unitGrid ⟨0⟩).pbd.entry sizeofFloat3 3 = some (cv.toFloat3 1) := by
    rw [buildPage_pbd, BufferDescriptor.entry_of_fits _ _ _ (by decide)
      (by show _ ≤ posBufferSize unitGrid; rw [hs]; decide)]
    dsimp only
    exact b0
  refine ⟨buildPage cv unitGrid ⟨0⟩, build_eq_some cv unitGrid ⟨0⟩ rfl (by decide),
    by show numVertices unitGrid = 4; decide, hs, e0, e1, e2, e3, ?_, ?_⟩
  · rintro ⟨h0, h1⟩
    rw [e0] at h0
    rw [e1, h0] at h1
    norm_num at h1
  · intro hcv
    rw [e0, e3, hcv]
    exact ⟨rfl, rfl⟩

/-- C5: the UV stream does not hold `(col / columns, row / rows)` at the
vertex index of each grid point. With `meshResolution(1, 1)` the four elements
of the UV stream are the conversions of the scalars `0` (`u` of vertex 0), `0`
(`v` of vertex 0), `1` (`u` of vertex 1) and `0` (`v` of vertex 1): `addVertex`
indexes the `float2` array with `vindex * 2 + k`. Elements 0 and 1 are equal, so
they are not the corner UVs `(0, 0)` and `(1, 0)`, whatever the conversion is;
with the conversion that copies the scalar, element 1 is `(0, 0)` and element
3 is `(0, 0)`, not `(1, 0)` and `(1, 1)`. -/
theorem uvs_not_per_vertex (cv : ScalarConv) :
    ∃ p : Page, build cv unitCell = some p ∧ p.vertexCount = 4 ∧ p.ubd.size = 32 ∧
      p.ubd.entry sizeofFloat2 0 = some (cv.toFloat2 0) ∧
      p.ubd.entry sizeofFloat2 1 = some (cv.toFloat2 0) ∧
      p.ubd.entry sizeofFloat2 2 = some (cv.toFloat2 1) ∧
      p.ubd.entry sizeofFloat2 3 = some (cv.toFloat2 0) ∧
      ¬ (p.ubd.entry sizeofFloat2 0 = some ⟨0, 0⟩ ∧ p.ubd.entry sizeofFloat2 1 = some ⟨1, 0⟩) ∧
      (cv = broadcast → p.ubd.entry sizeofFloat2 1 = some ⟨0, 0⟩ ∧
        p.ubd.entry sizeofFloat2 3 = some ⟨0, 0⟩) := by
  have hv := vertexLoop_inv cv unitCell (by decide) (by decide) (by decide)
  have hP0 := hv.2.2.2 0 0 (by decide) (by decide) (by decide) (Or.inl (by decide))
  have hP1 := hv.2.2.2 0 1 (by decide) (by decide) (by decide) (Or.inl (by decide))
  unfold pointEntries at hP0 hP1
  have hu0 : gridU unitCell 0 = 0 := by
    norm_num [gridU, unitCell, PageBuilder.new, PageBuilder.meshResolution]
  have hv0 : gridV unitCell 0 = 0 := by
    norm_num [gridV, unitCell, PageBuilder.new, PageBuilder.meshResolution]
  have hu1 : gridU unitCell 1 = 1 := by
    norm_num [gridU, unitCell, PageBuilder.new, PageBuilder.meshResolution]
  have hw : unitCell.mMeshResolution.x = 1 := rfl
  have i0 : (2 : Int) * (0 * (1 + 1) + 0) = 0 := by decide
  have i1 : (0 : Int) + 1 = 1 := by decide
  have i2 : (2 : Int) * (0 * (1 + 1) + 1) = 2 := by decide
  have i3 : (2 : Int) + 1 = 3 := by decide
  rw [hw, hu0, hv0, i0, i1] at hP0
  rw [hw, hu1, hv0, i2, i3] at hP1
  obtain ⟨_, _, _, a0, a1⟩ := hP0
  obtain ⟨_, _, _, b0, b1⟩ := hP1
  have hs : uvBufferSize unitCell = 32 := by decide
  have e0 : (buildPage cv unitCell ⟨0⟩).ubd.entry sizeofFloat2 0 = some (cv.toFloat2 0) := by
    rw [buildPage_ubd, BufferDescriptor.entry_of_fits _ _ _ (by decide)
      (by show _ ≤ uvBufferSize unitCell; rw [hs]; decide)]
    dsimp only
    exact a0
  have e1 : (buildPage cv unitCell ⟨0⟩).ubd.entry sizeofFloat2 1 = some (cv.toFloat2 0) := by
    rw [buildPage_ubd, BufferDescriptor.entry_of_fits _ _ _ (by decide)
      (by show _ ≤ uvBufferSize unitCell; rw [hs]; decide)]
    dsimp only
    exact a1
  have e2 : (buildPage cv unitCell ⟨0⟩).ubd.entry sizeofFloat2 2 = some (cv.toFloat2 1) := by
    rw [buildPage_ubd, BufferDescriptor.entry_of_fits _ _ _ (by decide)
      (by show _ ≤ uvBufferSize unitCell; rw [hs]; decide)]
    dsimp only
    exact b0
  have e3 : (buildPage cv unitCell ⟨0⟩).ubd.entry sizeofFloat2 3 = some (cv.toFloat2 0) := by
    rw [buildPage_ubd, BufferDescriptor.entry_of_fits _ _ _ (by decide)
      (by show _ ≤ uvBufferSize unitCell; rw [hs]; decide)]
    dsimp only
    exact b1
  refine ⟨buildPage cv unitCell ⟨0⟩, build_eq_some cv unitCell ⟨0⟩ rfl (by decide),
    by show numVertices unitCell = 4; decide, hs, e0, e1, e2, e3, ?_, ?_⟩
  · rintro ⟨h0, h1⟩
    rw [e0] at h0
    rw [e1, h0] at h1
    norm_num at h1
  · intro hcv
    rw [e1, e3, hcv]
    exact ⟨rfl, rfl⟩

/-- C6: the index array is not `numIndices * 2` bytes. For the default 20 x 20
grid (441 vertices, 2400 indices) `build` allocates and hands over 5292 bytes of
positions (441 * 12), 3528 bytes of UVs (441 * 8), 3528 bytes of tangents
(441 * 8) and 19200 bytes of indices: `indexBufferSize` is `numIndices * 8`, not
`numIndices * 2 = 4800`. -/
theorem index_buffer_size_default (cv : ScalarConv) :
    ∃ p : Page, build cv defaultGrid = some p ∧ p.vertexCount = 441 ∧ p.indexCount = 2400 ∧
      p.pbd.size = 441 * sizeofFloat3 ∧ p.ubd.size = 441 * sizeofFloat2 ∧
      p.tbd.size = 441 * (4 * sizeofInt16) ∧
      p.ib.size = 19200 ∧ p.ib.size ≠ 2400 * sizeofUInt16 := by
  have hs : indexBufferSize defaultGrid = 19200 := by decide
  refine ⟨buildPage cv defaultGrid ⟨0⟩, build_eq_some cv defaultGrid ⟨0⟩ rfl (by decide),
    by show numVertices defaultGrid = 441; decide,
    by show numIndices defaultGrid = 2400; decide,
    by show posBufferSize defaultGrid = _; decide,
    by show uvBufferSize defaultGrid = _; decide,
    by show tanBufferSize defaultGrid = _; decide, hs, ?_⟩
  show indexBufferSize defaultGrid ≠ _
  rw [hs]
  decide

/-- The counts of a run of `build` on a positive grid within the index limit:
declared counts, final counters and written index entries. -/
theorem build_counts_exact (cv : ScalarConv) (b : PageBuilder) (materials : PageMaterials)
    (hm : b.mMaterials = some materials)
    (hcolumns : 0 < b.mMeshResolution.x) (hrows : 0 < b.mMeshResolution.y)
    (hlimit : b.mMeshResolution.x * b.mMeshResolution.y * 6 ≤ 65535) :
    ∃ p : Page, build cv b = some p ∧
      p.vertexCount = (b.mMeshResolution.x + 1) * (b.mMeshResolution.y + 1) ∧
      p.indexCount = b.mMeshResolution.x * b.mMeshResolution.y * 6 ∧
      p.vindex = (b.mMeshResolution.x + 1) * (b.mMeshResolution.y + 1) ∧
      p.tindex = b.mMeshResolution.x * b.mMeshResolution.y * 2 ∧
      (∀ k : Int, (p.ib.buffer k).isSome = true ↔
        0 ≤ k ∧ k < b.mMeshResolution.x * b.mMeshResolution.y * 6) := by
  obtain ⟨_, hI, hV⟩ := counts_exact b hcolumns hrows hlimit
  have hi := indexLoop_inv b.mMeshResolution.x b.mMeshResolution.y hcolumns hrows hlimit
  have hv := vertexLoop_inv cv b hcolumns hrows hlimit
  refine ⟨buildPage cv b materials, build_eq_some cv b materials hm (by omega), hV, hI, ?_, ?_, ?_⟩
  · show (vertexLoop cv b ⟨0, Mem.fresh, Mem.fresh⟩).vindex = _
    rw [hv.1]
    ring
  · show (indexLoop b.mMeshResolution.x b.mMeshResolution.y ⟨0, Mem.fresh⟩).tindex = _
    rw [hi.1]
    ring
  · intro k
    exact indexInv_written b.mMeshResolution.x b.mMeshResolution.y _ hcolumns hi k

/-- C1: for a positive column count and row count with `columns * rows * 6 ≤ 65535`
and a non-null material provider, `build` returns a page (not null), declares
`(columns + 1) * (rows + 1)` vertices and `columns * rows * 6` indices, and its
loops emit exactly that many: `addVertex` runs `(columns + 1) * (rows + 1)` times
(final `vindex`), `addTriangle` runs `columns * rows * 2` times (final `tindex`),
and the index entries written are exactly those at offsets
`0 .. columns * rows * 6 - 1`. -/
theorem build_counts (cv : ScalarConv) (b : PageBuilder) (materials : PageMaterials)
    (hm : b.mMaterials = some materials)
    (hcolumns : 0 < b.mMeshResolution.x) (hrows : 0 < b.mMeshResolution.y)
    (hlimit : b.mMeshResolution.x * b.mMeshResolution.y * 6 ≤ 65535) :
    ∃ p : Page, build cv b = some p ∧
      p.vertexCount = (b.mMeshResolution.x + 1) * (b.mMeshResolution.y + 1) ∧
      p.indexCount = b.mMeshResolution.x * b.mMeshResolution.y * 6 ∧
      p.vindex = (b.mMeshResolution.x + 1) * (b.mMeshResolution.y + 1) ∧
      p.tindex = b.mMeshResolution.x * b.mMeshResolution.y * 2 ∧
      (∀ k : Int, (p.ib.buffer k).isSome = true ↔
        0 ≤ k ∧ k < b.mMeshResolution.x * b.mMeshResolution.y * 6) :=
  build_counts_exact cv b materials hm hcolumns hrows hlimit

/-- Witness of C1: a 3 x 2 grid gives 12 vertices, 36 indices and 12
triangles. -/
theorem build_counts_witness :
    ((PageBuilder.new (some ⟨7⟩)).meshResolution 3 2).mMaterials = some ⟨7⟩ ∧
    (0 : Int) < 3 ∧ (0 : Int) < 2 ∧ (3 : Int) * 2 * 6 ≤ 65535 ∧
    ∃ p : Page, build broadcast ((PageBuilder.new (some ⟨7⟩)).meshResolution 3 2) = some p ∧
      p.vertexCount = 12 ∧ p.indexCount = 36 ∧ p.vindex = 12 ∧ p.tindex = 12 ∧
      (∀ k : Int, (p.ib.buffer k).isSome = true ↔ 0 ≤ k ∧ k < 36) :=
  ⟨rfl, by decide, by decide, by decide,
    build_counts broadcast ((PageBuilder.new (some ⟨7⟩)).meshResolution 3 2) ⟨7⟩ rfl
      (by decide) (by decide) (by decide)⟩

/-- The setters leave the material provider alone. -/
theorem applySetters_mMaterials (calls : List SetterCall) (b : PageBuilder) :
    (applySetters b calls).mMaterials = b.mMaterials := by
  unfold applySetters
  induction calls generalizing b with
  | nil => rfl
  | cons c cs ih =>
    rw [List.foldl_cons, ih]
    cases c <;> rfl

/-- C7: `build` returns null on every builder whose material provider is
null, whatever its size, center, zOrder, orientation and mesh resolution are;
in particular on a builder constructed with a null `PageMaterials` pointer,
whatever setters are called on it afterwards and with whatever arguments. -/
theorem build_null_provider (cv : ScalarConv) (b : PageBuilder) (calls : List SetterCall) :
    build cv { b with mMaterials := none } = none ∧
    build cv (applySetters (PageBuilder.new none) calls) = none := by
  have h := applySetters_mMaterials calls (PageBuilder.new none)
  refine ⟨rfl, ?_⟩
  unfold build
  rw [h]
  rfl

/-- C8: a builder on which no setter has been called has mesh resolution
20 x 20, size 1 x 1 and center (0.5, 0.0); with a non-null provider `build`
passes the guard, declares 441 vertices and 2400 indices, and its loops emit
441 vertices and 800 triangles (2400 index entries). -/
theorem build_default (cv : ScalarConv) (materials : PageMaterials) :
    (PageBuilder.new (some materials)).mMeshResolution = ⟨20, 20⟩ ∧
    (PageBuilder.new (some materials)).mSize = ⟨1, 1⟩ ∧
    (PageBuilder.new (some materials)).mCenter = ⟨1 / 2, 0⟩ ∧
    ∃ p : Page, build cv (PageBuilder.new (some materials)) = some p ∧
      p.vertexCount = 441 ∧ p.indexCount = 2400 ∧ p.vindex = 441 ∧ p.tindex = 800 ∧
      (∀ k : Int, (p.ib.buffer k).isSome = true ↔ 0 ≤ k ∧ k < 2400) :=
  ⟨rfl, rfl, rfl,
    build_counts_exact cv (PageBuilder.new (some materials)) materials rfl
      (show (0 : Int) < 20 by decide) (show (0 : Int) < 20 by decide)
      (show (20 : Int) * 20 * 6 ≤ 65535 by decide)⟩

/-- C9: each of the five setters stores exactly its arguments in its own
field, for every argument value, and leaves the material provider and every
other field as they were; the builder it returns is the builder it was called
on, after the store. -/
theorem setters_frame (b : PageBuilder) (o : Orientation) (w h z x y : ℚ) (c r : Int) :
    (b.orientation o).mOrientation = o ∧
    (b.orientation o).mMaterials = b.mMaterials ∧ (b.orientation o).mSize = b.mSize ∧
    (b.orientation o).mCenter = b.mCenter ∧ (b.orientation o).mZOrder = b.mZOrder ∧
    (b.orientation o).mMeshResolution = b.mMeshResolution ∧
    (b.size w h).mSize = ⟨w, h⟩ ∧
    (b.size w h).mMaterials = b.mMaterials ∧ (b.size w h).mOrientation = b.mOrientation ∧
    (b.size w h).mCenter = b.mCenter ∧ (b.size w h).mZOrder = b.mZOrder ∧
    (b.size w h).mMeshResolution = b.mMeshResolution ∧
    (b.zOrder z).mZOrder = z ∧
    (b.zOrder z).mMaterials = b.mMaterials ∧ (b.zOrder z).mOrientation = b.mOrientation ∧
    (b.zOrder z).mSize = b.mSize ∧ (b.zOrder z).mCenter = b.mCenter ∧
    (b.zOrder z).mMeshResolution = b.mMeshResolution ∧
    (b.center x y).mCenter = ⟨x, y⟩ ∧
    (b.center x y).mMaterials = b.mMaterials ∧ (b.center x y).mOrientation = b.mOrientation ∧
    (b.center x y).mSize = b.mSize ∧ (b.center x y).mZOrder = b.mZOrder ∧
    (b.center x y).mMeshResolution = b.mMeshResolution ∧
    (b.meshResolution c r).mMeshResolution = ⟨c, r⟩ ∧
    (b.meshResolution c r).mMaterials = b.mMaterials ∧
    (b.meshResolution c r).mOrientation = b.mOrientation ∧
    (b.meshResolution c r).mSize = b.mSize ∧ (b.meshResolution c r).mCenter = b.mCenter ∧
    (b.meshResolution c r).mZOrder = b.mZOrder := by
  refine ⟨rfl, rfl, rfl, rfl, rfl, rfl, rfl, rfl, rfl, rfl, rfl, rfl, rfl, rfl, rfl, rfl, rfl,
    rfl, rfl, rfl, rfl, rfl, rfl, rfl, rfl, rfl, rfl, rfl, rfl, rfl⟩

/-- C10: `getParameterName` returns a name, never null, for each of the three
values of the enumeration: "imageTexture", "apexFloat" and "thetaFloat"; the
three names are pairwise distinct. -/
theorem getParameterName_total :
    getParameterName Parameter.IMAGE_TEXTURE = some "imageTexture" ∧
    getParameterName Parameter.APEX_FLOAT = some "apexFloat" ∧
    getParameterName Parameter.THETA_FLOAT = some "thetaFloat" ∧
    (∀ p : Parameter, getParameterName p ≠ none) ∧
    (∀ p q : Parameter, getParameterName p = getParameterName q → p = q) := by
  refine ⟨by decide, by decide, by decide, ?_, ?_⟩
  · intro p
    cases p <;> decide
  · intro p q
    cases p <;> cases q <;> decide

/-! ## Bounds of the writes and corner indices -/

/-- In a positive grid within the index limit every write of the index loop
lies inside the index array, while the last write of the vertex loop into
`positions`, at element `3 * numVertices - 1`, and its last write into `uvs`, at
element `2 * numVertices - 1`, lie outside the arrays of `numVertices`
elements. -/
theorem store_bounds_exact (cv : ScalarConv) (b : PageBuilder) (materials : PageMaterials)
    (hm : b.mMaterials = some materials)
    (hcolumns : 0 < b.mMeshResolution.x) (hrows : 0 < b.mMeshResolution.y)
    (hlimit : b.mMeshResolution.x * b.mMeshResolution.y * 6 ≤ 65535) :
    ∃ p : Page, build cv b = some p ∧
      (∀ k : Int, (p.ib.buffer k).isSome = true → p.ib.inBounds sizeofUInt16 k) ∧
      (p.pbd.buffer (3 * ((b.mMeshResolution.x + 1) * (b.mMeshResolution.y + 1)) - 1)).isSome
        = true ∧
      ¬ p.pbd.inBounds sizeofFloat3
        (3 * ((b.mMeshResolution.x + 1) * (b.mMeshResolution.y + 1)) - 1) ∧
      (p.ubd.buffer (2 * ((b.mMeshResolution.x + 1) * (b.mMeshResolution.y + 1)) - 1)).isSome
        = true ∧
      ¬ p.ubd.inBounds sizeofFloat2
        (2 * ((b.mMeshResolution.x + 1) * (b.mMeshResolution.y + 1)) - 1) := by
  obtain ⟨_, hI, _⟩ := counts_exact b hcolumns hrows hlimit
  obtain ⟨hP, hU, _, hS⟩ := bufferSizes_exact b hcolumns hrows hlimit
  have hi := indexLoop_inv b.mMeshResolution.x b.mMeshResolution.y hcolumns hrows hlimit
  have hv := vertexLoop_inv cv b hcolumns hrows hlimit
  obtain ⟨_, _, p2, _, u1⟩ := hv.2.2.2 b.mMeshResolution.y b.mMeshResolution.x (by omega)
    (by omega) (le_refl _) (Or.inl (by omega))
  have hN : (b.mMeshResolution.x + 1) * (b.mMeshResolution.y + 1) =
      b.mMeshResolution.y * (b.mMeshResolution.x + 1) + b.mMeshResolution.x + 1 := by ring
  have hN0 : 0 ≤ b.mMeshResolution.y * (b.mMeshResolution.x + 1) :=
    mul_nonneg (by omega) (by omega)
  have e3 : 3 * ((b.mMeshResolution.x + 1) * (b.mMeshResolution.y + 1)) - 1 =
      3 * (b.mMeshResolution.y * (b.mMeshResolution.x + 1) + b.mMeshResolution.x) + 2 := by
    rw [hN]; ring
  have e2 : 2 * ((b.mMeshResolution.x + 1) * (b.mMeshResolution.y + 1)) - 1 =
      2 * (b.mMeshResolution.y * (b.mMeshResolution.x + 1) + b.mMeshResolution.x) + 1 := by
    rw [hN]; ring
  refine ⟨buildPage cv b materials, build_eq_some cv b materials hm (by omega), ?_, ?_, ?_, ?_,
    ?_⟩
  · intro k hk
    rw [buildPage_ib] at hk ⊢
    have hw := (indexInv_written b.mMeshResolution.x b.mMeshResolution.y _ hcolumns hi k).mp hk
    unfold BufferDescriptor.inBounds sizeofUInt16
    dsimp only
    rw [hS]
    omega
  · rw [buildPage_pbd, e3]
    dsimp only
    rw [p2]
    rfl
  · rw [buildPage_pbd]
    unfold BufferDescriptor.inBounds sizeofFloat3
    dsimp only
    rw [hP, hN]
    omega
  · rw [buildPage_ubd, e2]
    dsimp only
    rw [u1]
    rfl
  · rw [buildPage_ubd]
    unfold BufferDescriptor.inBounds sizeofFloat2
    dsimp only
    rw [hU, hN]
    omega

/-- C11: not every array write of `build` is in bounds. For `meshResolution(1, 1)`
(4 vertices) `positions` is allocated with 48 bytes, 4 elements of type
`float3`, and `uvs` with 32 bytes, 4 elements of type `float2`; `addVertex`
writes `positions[vindex * 3 + k]` up to element 11 and `uvs[vindex * 2 + k]` up
to element 7, both outside the allocation. The writes of `addTriangle` into
`indices` are all inside the 48 bytes of that array. -/
theorem stores_out_of_bounds (cv : ScalarConv) :
    ∃ p : Page, build cv unitCell = some p ∧ p.vertexCount = 4 ∧
      p.pbd.size = 4 * sizeofFloat3 ∧ p.ubd.size = 4 * sizeofFloat2 ∧
      p.ib.size = 24 * sizeofUInt16 ∧
      (p.pbd.buffer 11).isSome = true ∧ ¬ p.pbd.inBounds sizeofFloat3 11 ∧
      (p.ubd.buffer 7).isSome = true ∧ ¬ p.ubd.inBounds sizeofFloat2 7 ∧
      ¬ (∀ k : Int, (p.pbd.buffer k).isSome = true → p.pbd.inBounds sizeofFloat3 k) ∧
      ¬ (∀ k : Int, (p.ubd.buffer k).isSome = true → p.ubd.inBounds sizeofFloat2 k) ∧
      (∀ k : Int, (p.ib.buffer k).isSome = true → p.ib.inBounds sizeofUInt16 k) := by
  obtain ⟨p, hp, hib, hpw, hpo, huw, huo⟩ := store_bounds_exact cv unitCell ⟨0⟩ rfl
    (by decide) (by decide) (by decide)
  have e3 : 3 * ((unitCell.mMeshResolution.x + 1) * (unitCell.mMeshResolution.y + 1)) - 1 = 11 := by
    decide
  have e2 : 2 * ((unitCell.mMeshResolution.x + 1) * (unitCell.mMeshResolution.y + 1)) - 1 = 7 := by
    decide
  rw [e3] at hpw hpo
  rw [e2] at huw huo
  have hq : p = buildPage cv unitCell ⟨0⟩ := by
    have := build_eq_some cv unitCell ⟨0⟩ rfl (by decide)
    rw [this] at hp
    exact (Option.some.inj hp).symm
  refine ⟨p, hp, ?_, ?_, ?_, ?_, hpw, hpo, huw, huo, fun h => hpo (h 11 hpw),
    fun h => huo (h 7 huw), hib⟩
  · rw [hq]; show numVertices unitCell = 4; decide
  · rw [hq]; show posBufferSize unitCell = _; decide
  · rw [hq]; show uvBufferSize unitCell = _; decide
  · rw [hq]; show indexBufferSize unitCell = _; decide

/-- The body of the index loop passes the four corner indices to
`addTriangle` as `(a, b, d)` and `(d, c, a)`. -/
theorem indexCell_corners (vertsPerRow row col : Int) (s : IndexState) :
    indexCell vertsPerRow row col s =
      addTriangle
        (addTriangle s (cornerIndex vertsPerRow row col 0 0) (cornerIndex vertsPerRow row col 1 0)
          (cornerIndex vertsPerRow row col 1 1))
        (cornerIndex vertsPerRow row col 1 1) (cornerIndex vertsPerRow row col 0 1)
        (cornerIndex vertsPerRow row col 0 0) := rfl

/-- In a positive grid within the index limit the corner index of corner
`(i, j)` of cell `(col, row)` is computed without overflow and is the index
of a vertex. -/
theorem cornerIndex_range (columns rows row col i j : Int)
    (hcolumns : 0 < columns) (hrows : 0 < rows) (hlimit : columns * rows * 6 ≤ 65535)
    (hrow : 0 ≤ row ∧ row < rows) (hcol : 0 ≤ col ∧ col < columns)
    (hi : 0 ≤ i ∧ i ≤ 1) (hj : 0 ≤ j ∧ j ≤ 1) :
    cornerIndex (iadd columns 1) row col i j = (col + i) + (row + j) * (columns + 1) ∧
    0 ≤ cornerIndex (iadd columns 1) row col i j ∧
    cornerIndex (iadd columns 1) row col i j < (columns + 1) * (rows + 1) ∧
    cornerIndex (iadd columns 1) row col i j ≤ 65535 := by
  have hC : columns ≤ columns * rows := by nlinarith
  have hD : rows ≤ columns * rows := by nlinarith
  have e : iadd columns 1 = columns + 1 := by rw [iadd_eq] <;> omega
  have hA : (row + 1) * (columns + 1) ≤ rows * (columns + 1) :=
    mul_le_mul_of_nonneg_right (by omega) (by omega)
  have hB : (row + j) * (columns + 1) ≤ (row + 1) * (columns + 1) :=
    mul_le_mul_of_nonneg_right (by omega) (by omega)
  have e1 : rows * (columns + 1) = columns * rows + rows := by ring
  have e2 : (columns + 1) * (rows + 1) = columns * rows + rows + columns + 1 := by ring
  have hd : (col + 1) + (row + 1) * (columns + 1) ≤ 65535 := by omega
  obtain ⟨hv, h0, h1⟩ := corner_exact columns row col i j hrow.1 hcol.1 (by omega) hi hj hd
  unfold cornerIndex
  rw [e, hv]
  refine ⟨rfl, h0, ?_, h1⟩
  omega

/-- After the index loop every entry of the index array is the index of a
vertex. -/
theorem indexInv_values (columns rows : Int) (s : IndexState) (hcolumns : 0 < columns)
    (h : IndexInv columns rows 0 s) (k e : Int)
    (hk : s.indices k = some e) : 0 ≤ e ∧ e < (columns + 1) * (rows + 1) := by
  have hw : (s.indices k).isSome = true := by rw [hk]; rfl
  obtain ⟨hk0, hk1⟩ := (indexInv_written columns rows s hcolumns h k).mp hw
  obtain ⟨_, _, hcells⟩ := h
  have hm0 : 0 ≤ k / 6 := Int.ediv_nonneg hk0 (by omega)
  have hm1 : k / 6 < columns * rows := by omega
  have hrow0 : 0 ≤ k / 6 / columns := Int.ediv_nonneg hm0 (by omega)
  have hrow1 : k / 6 / columns < rows := Int.ediv_lt_of_lt_mul hcolumns (by linarith)
  have hcol0 : 0 ≤ k / 6 % columns := Int.emod_nonneg _ (by omega)
  have hcol1 : k / 6 % columns < columns := Int.emod_lt_of_pos _ hcolumns
  have hdiv : k / 6 / columns * columns + k / 6 % columns = k / 6 := by
    rw [mul_comm]
    exact Int.ediv_add_emod _ _
  obtain ⟨c0, c1, c2, c3, c4, c5⟩ := hcells (k / 6 / columns) (k / 6 % columns) hrow0 hcol0
    hcol1 (Or.inl hrow1)
  rw [hdiv] at c0 c1 c2 c3 c4 c5
  have hA : (k / 6 / columns + 1) * (columns + 1) ≤ rows * (columns + 1) :=
    mul_le_mul_of_nonneg_right (by omega) (by omega)
  have hB : 0 ≤ k / 6 / columns * (columns + 1) := mul_nonneg hrow0 (by omega)
  have e1 : (k / 6 / columns + 1) * (columns + 1) =
      k / 6 / columns * (columns + 1) + columns + 1 := by ring
  have e2 : (columns + 1) * (rows + 1) = rows * (columns + 1) + columns + 1 := by ring
  have hcase : k = 6 * (k / 6) ∨ k = 6 * (k / 6) + 1 ∨ k = 6 * (k / 6) + 2 ∨
      k = 6 * (k / 6) + 3 ∨ k = 6 * (k / 6) + 4 ∨ k = 6 * (k / 6) + 5 := by omega
  rcases hcase with h | h | h | h | h | h
  · rw [h, c0] at hk; have := Option.some.inj hk; omega
  · rw [h, c1] at hk; have := Option.some.inj hk; omega
  · rw [h, c2] at hk; have := Option.some.inj hk; omega
  · rw [h, c3] at hk; have := Option.some.inj hk; omega
  · rw [h, c4] at hk; have := Option.some.inj hk; omega
  · rw [h, c5] at hk; have := Option.some.inj hk; omega

/-- A run of `build` that returns a page returns the page `buildPage`
assembles for the provider of the builder. -/
theorem build_some_inv (cv : ScalarConv) (b : PageBuilder) (p : Page)
    (h : build cv b = some p) :
    ∃ materials : PageMaterials, b.mMaterials = some materials ∧ numIndices b ≤ 65535 ∧
      p = buildPage cv b materials := by
  unfold build at h
  cases hm : b.mMaterials with
  | none => rw [hm] at h; simp at h
  | some m =>
    rw [hm] at h
    simp only [] at h
    by_cases hn : numIndices b > 65535
    · rw [if_pos hn] at h; simp at h
    · rw [if_neg hn] at h
      exact ⟨m, rfl, by omega, (Option.some.inj h).symm⟩

/-! ## The index array at `setBuffer`, the guard, the heap at handoff -/

/-- A store does not remove a recorded store. -/
theorem Mem.store_isSome {α : Type} (m : Mem α) (i j : Int) (v : α)
    (h : (m j).isSome = true) : ((m.store i v) j).isSome = true := by
  unfold Mem.store
  by_cases hj : j = i
  · rw [if_pos hj]; rfl
  · rw [if_neg hj]; exact h

/-- The body of the index loop does not remove a recorded store. -/
theorem indexCell_isSome (vertsPerRow row col n : Int) (s : IndexState)
    (h : (s.indices n).isSome = true) :
    ((indexCell vertsPerRow row col s).indices n).isSome = true := by
  unfold indexCell addTriangle
  dsimp only
  exact Mem.store_isSome _ _ _ _ (Mem.store_isSome _ _ _ _ (Mem.store_isSome _ _ _ _
    (Mem.store_isSome _ _ _ _ (Mem.store_isSome _ _ _ _ (Mem.store_isSome _ _ _ _ h)))))

/-- A loop whose body keeps a property keeps it. -/
theorem forUpTo_keeps {σ : Type} (P : σ → Prop) (body : Int → σ → σ)
    (hbody : ∀ (i : Int) (s : σ), P s → P (body i s)) (n : Nat) (s : σ) (h : P s) :
    P (forUpTo n body s) := by
  induction n with
  | zero => exact h
  | succ k ih => exact hbody _ _ ih

/-- What holds after the first `m` iterations of a loop whose body keeps it
holds after any larger number of iterations. -/
theorem forUpTo_keeps_from {σ : Type} (P : σ → Prop) (body : Int → σ → σ)
    (hbody : ∀ (i : Int) (s : σ), P s → P (body i s)) (m n : Nat) (hmn : m ≤ n) (s : σ)
    (h : P (forUpTo m body s)) : P (forUpTo n body s) := by
  induction n with
  | zero =>
    have : m = 0 := by omega
    rw [this] at h
    exact h
  | succ k ih =>
    by_cases hk : m ≤ k
    · exact hbody _ _ (ih hk)
    · have : m = k + 1 := by omega
      rw [this] at h
      exact h

/-- A store that the first `m` rows of the index loop have made is still
recorded when the loop ends. -/
theorem indexLoop_isSome_of_prefix (numColumns numRows : Int) (m : Nat)
    (hm : m ≤ numRows.toNat) (n : Int)
    (h : ((forUpTo m
      (fun row s =>
        forUpTo numColumns.toNat (fun col s => indexCell (iadd numColumns 1) row col s) s)
      ⟨0, Mem.fresh⟩).indices n).isSome = true) :
    ((indexLoop numColumns numRows ⟨0, Mem.fresh⟩).indices n).isSome = true := by
  unfold indexLoop
  exact forUpTo_keeps_from (fun s : IndexState => (s.indices n).isSome = true) _
    (fun row s hs => forUpTo_keeps (fun s : IndexState => (s.indices n).isSome = true) _
      (fun col s hs => indexCell_isSome _ _ _ _ _ hs) _ _ hs) m _ hm _ h

/-- C3, counterexample: `meshResolution(1, 357913942)` is a positive grid that
passes the guard of `build`, because `numCells * 6` wraps to `-2147483644`.
`indexBufferSize` wraps to 32, so `indices` is allocated with 16 entries. The
index loop stores through `indices` at entry 16 in its third row and at
entries 18 to 23 for cell `(0, 3)`, all outside the allocation: the run
overruns the heap before `setBuffer`, and the six entries the claim speaks
of are not entries of the index array. Further on, the corner index `a` of
cell `(0, 32768)` is 65536, which the conversion to `uint16_t` turns into
0. -/
theorem index_array_overrun :
    tallGrid.mMeshResolution = ⟨1, 357913942⟩ ∧
    guardFails tallGrid = false ∧ numIndices tallGrid = -2147483644 ∧
    indexBufferSize tallGrid = 16 * sizeofUInt16 ∧
    ((indexLoop 1 357913942 ⟨0, Mem.fresh⟩).indices 16).isSome = true ∧
    (∀ k : Int, 18 ≤ k → k ≤ 23 →
      ((indexLoop 1 357913942 ⟨0, Mem.fresh⟩).indices k).isSome = true ∧
      indexBufferSize tallGrid < (k + 1) * sizeofUInt16) ∧
    cornerIndex (iadd 1 1) 32768 0 0 0 = 65536 ∧
    toUInt16 (cornerIndex (iadd 1 1) 32768 0 0 0) = 0 ∧
    ¬ ∃ p : Page, build broadcast tallGrid = some p ∧
      p.ib.entry sizeofUInt16 (6 * (3 * 1 + 0)) = some (0 + 3 * (1 + 1)) := by
  have hs : indexBufferSize tallGrid = 32 := by decide
  have hpre : ∀ k : Int, 16 ≤ k → k ≤ 23 →
      ((indexLoop 1 357913942 ⟨0, Mem.fresh⟩).indices k).isSome = true := by
    intro k h1 h2
    apply indexLoop_isSome_of_prefix 1 357913942 4 (by decide)
    have hk : k = 16 ∨ k = 17 ∨ k = 18 ∨ k = 19 ∨ k = 20 ∨ k = 21 ∨ k = 22 ∨ k = 23 := by
      omega
    rcases hk with rfl | rfl | rfl | rfl | rfl | rfl | rfl | rfl <;> decide
  refine ⟨rfl, by decide, by decide, by decide, hpre 16 (by decide) (by decide), ?_, by decide,
    by decide, ?_⟩
  · intro k h1 h2
    refine ⟨hpre k (by omega) h2, ?_⟩
    rw [hs]
    unfold sizeofUInt16
    omega
  · rintro ⟨p, hp, he⟩
    obtain ⟨m, _, _, rfl⟩ := build_some_inv broadcast tallGrid p hp
    rw [buildPage_ib, BufferDescriptor.entry_of_not_fits _ _ _
      (by show indexBufferSize tallGrid < _; rw [hs]; decide)] at he
    simp at he

/-- C3, amended: for every positive grid with `columns * rows * 6 ≤ 65535` (the
grids that pass the guard without `int` overflow), a non-null provider and
every cell `(col, row)`, the six consecutive entries of the index array, as
`build` passes it to `setBuffer`, starting at offset `6 * (row * columns + col)`
are exactly `a, b, d, d, c, a` with `a = col + row * (columns + 1)`,
`b = (col + 1) + row * (columns + 1)`, `c = col + (row + 1) * (columns + 1)`,
`d = (col + 1) + (row + 1) * (columns + 1)`: row-major order, triangle
`(a, b, d)` then `(d, c, a)`; and every store of the index loop lies inside
the array. -/
theorem index_winding (cv : ScalarConv) (b : PageBuilder) (materials : PageMaterials)
    (hm : b.mMaterials = some materials)
    (hcolumns : 0 < b.mMeshResolution.x) (hrows : 0 < b.mMeshResolution.y)
    (hlimit : b.mMeshResolution.x * b.mMeshResolution.y * 6 ≤ 65535)
    (row col : Int) (hrow : 0 ≤ row ∧ row < b.mMeshResolution.y)
    (hcol : 0 ≤ col ∧ col < b.mMeshResolution.x) :
    ∃ p : Page, build cv b = some p ∧
      p.ib.entry sizeofUInt16 (6 * (row * b.mMeshResolution.x + col)) =
        some (col + row * (b.mMeshResolution.x + 1)) ∧
      p.ib.entry sizeofUInt16 (6 * (row * b.mMeshResolution.x + col) + 1) =
        some ((col + 1) + row * (b.mMeshResolution.x + 1)) ∧
      p.ib.entry sizeofUInt16 (6 * (row * b.mMeshResolution.x + col) + 2) =
        some ((col + 1) + (row + 1) * (b.mMeshResolution.x + 1)) ∧
      p.ib.entry sizeofUInt16 (6 * (row * b.mMeshResolution.x + col) + 3) =
        some ((col + 1) + (row + 1) * (b.mMeshResolution.x + 1)) ∧
      p.ib.entry sizeofUInt16 (6 * (row * b.mMeshResolution.x + col) + 4) =
        some (col + (row + 1) * (b.mMeshResolution.x + 1)) ∧
      p.ib.entry sizeofUInt16 (6 * (row * b.mMeshResolution.x + col) + 5) =
        some (col + row * (b.mMeshResolution.x + 1)) ∧
      (∀ k : Int, (p.ib.buffer k).isSome = true → p.ib.inBounds sizeofUInt16 k) := by
  obtain ⟨p, hp, e0, e1, e2, e3, e4, e5⟩ :=
    index_winding_exact cv b materials hm hcolumns hrows hlimit row col hrow hcol
  obtain ⟨q, hq, hb, _⟩ := store_bounds_exact cv b materials hm hcolumns hrows hlimit
  have hpq : q = p := by
    rw [hp] at hq
    exact (Option.some.inj hq).symm
  rw [hpq] at hb
  exact ⟨p, hp, e0, e1, e2, e3, e4, e5, hb⟩

/-- Witness of C3: cell `(2, 1)` of a 3 x 2 grid has its entries
`6, 7, 11, 11, 10, 6` at offset 30. -/
theorem index_winding_witness :
    smallGrid.mMaterials = some ⟨7⟩ ∧
    0 < smallGrid.mMeshResolution.x ∧ 0 < smallGrid.mMeshResolution.y ∧
    smallGrid.mMeshResolution.x * smallGrid.mMeshResolution.y * 6 ≤ 65535 ∧
    ((0 : Int) ≤ 1 ∧ 1 < smallGrid.mMeshResolution.y) ∧
    ((0 : Int) ≤ 2 ∧ 2 < smallGrid.mMeshResolution.x) ∧
    (6 * (1 * smallGrid.mMeshResolution.x + 2) = 30 ∧
      2 + 1 * (smallGrid.mMeshResolution.x + 1) = 6 ∧
      (2 + 1) + (1 + 1) * (smallGrid.mMeshResolution.x + 1) = 11) ∧
    ∃ p : Page, build broadcast smallGrid = some p ∧
      p.ib.entry sizeofUInt16 (6 * (1 * smallGrid.mMeshResolution.x + 2)) =
        some (2 + 1 * (smallGrid.mMeshResolution.x + 1)) ∧
      p.ib.entry sizeofUInt16 (6 * (1 * smallGrid.mMeshResolution.x + 2) + 1) =
        some ((2 + 1) + 1 * (smallGrid.mMeshResolution.x + 1)) ∧
      p.ib.entry sizeofUInt16 (6 * (1 * smallGrid.mMeshResolution.x + 2) + 2) =
        some ((2 + 1) + (1 + 1) * (smallGrid.mMeshResolution.x + 1)) ∧
      p.ib.entry sizeofUInt16 (6 * (1 * smallGrid.mMeshResolution.x + 2) + 3) =
        some ((2 + 1) + (1 + 1) * (smallGrid.mMeshResolution.x + 1)) ∧
      p.ib.entry sizeofUInt16 (6 * (1 * smallGrid.mMeshResolution.x + 2) + 4) =
        some (2 + (1 + 1) * (smallGrid.mMeshResolution.x + 1)) ∧
      p.ib.entry sizeofUInt16 (6 * (1 * smallGrid.mMeshResolution.x + 2) + 5) =
        some (2 + 1 * (smallGrid.mMeshResolution.x + 1)) ∧
      (∀ k : Int, (p.ib.buffer k).isSome = true → p.ib.inBounds sizeofUInt16 k) :=
  ⟨rfl, by decide, by decide, by decide, by decide, by decide, by decide,
    index_winding broadcast smallGrid ⟨7⟩ rfl (by decide) (by decide) (by decide) 1 2
      (by decide) (by decide)⟩

/-- C12: in a positive grid with `columns * rows * 6 ≤ 65535` every corner
index `a`, `b`, `c`, `d` (corner `(i, j)` of a cell, `i` and `j` 0 or 1) that
`build` passes to `addTriangle` is non-negative, smaller than
`numVertices = (columns + 1) * (rows + 1)` and at most 65535, so the conversion
to `uint16_t` keeps its value. When the index loop ends, which is when the
index array is passed to `setBuffer` and before the vertex loop runs, every
store of the loop lies inside the array and every entry stored is the index
of one of the `numVertices` vertices that `build` declares and that
`addVertex` is called for. -/
theorem corner_indices_valid (cv : ScalarConv) (b : PageBuilder) (materials : PageMaterials)
    (hm : b.mMaterials = some materials)
    (hcolumns : 0 < b.mMeshResolution.x) (hrows : 0 < b.mMeshResolution.y)
    (hlimit : b.mMeshResolution.x * b.mMeshResolution.y * 6 ≤ 65535)
    (row col i j : Int) (hrow : 0 ≤ row ∧ row < b.mMeshResolution.y)
    (hcol : 0 ≤ col ∧ col < b.mMeshResolution.x) (hi : 0 ≤ i ∧ i ≤ 1) (hj : 0 ≤ j ∧ j ≤ 1) :
    0 ≤ cornerIndex (iadd b.mMeshResolution.x 1) row col i j ∧
    cornerIndex (iadd b.mMeshResolution.x 1) row col i j < numVertices b ∧
    numVertices b = (b.mMeshResolution.x + 1) * (b.mMeshResolution.y + 1) ∧
    cornerIndex (iadd b.mMeshResolution.x 1) row col i j ≤ 65535 ∧
    toUInt16 (cornerIndex (iadd b.mMeshResolution.x 1) row col i j) =
      cornerIndex (iadd b.mMeshResolution.x 1) row col i j ∧
    (∃ p : Page, build cv b = some p ∧ p.vertexCount = numVertices b ∧
      p.vindex = numVertices b) ∧
    (∀ k : Int,
      ((indexLoop b.mMeshResolution.x b.mMeshResolution.y ⟨0, Mem.fresh⟩).indices k).isSome
        = true → 0 ≤ k ∧ (k + 1) * sizeofUInt16 ≤ indexBufferSize b) ∧
    (∀ k e : Int,
      (indexLoop b.mMeshResolution.x b.mMeshResolution.y ⟨0, Mem.fresh⟩).indices k = some e →
        0 ≤ e ∧ e < numVertices b ∧ e ≤ 65535) := by
  obtain ⟨_, hI, hV⟩ := counts_exact b hcolumns hrows hlimit
  obtain ⟨_, _, _, hS⟩ := bufferSizes_exact b hcolumns hrows hlimit
  obtain ⟨_, h0, h1, h2⟩ := cornerIndex_range b.mMeshResolution.x b.mMeshResolution.y row col i j
    hcolumns hrows hlimit hrow hcol hi hj
  have hi2 := indexLoop_inv b.mMeshResolution.x b.mMeshResolution.y hcolumns hrows hlimit
  have hv := vertexLoop_inv cv b hcolumns hrows hlimit
  have hC : b.mMeshResolution.x ≤ b.mMeshResolution.x * b.mMeshResolution.y := by nlinarith
  have hD : b.mMeshResolution.y ≤ b.mMeshResolution.x * b.mMeshResolution.y := by nlinarith
  have e2 : (b.mMeshResolution.x + 1) * (b.mMeshResolution.y + 1) =
      b.mMeshResolution.x * b.mMeshResolution.y + b.mMeshResolution.y + b.mMeshResolution.x + 1 := by
    ring
  refine ⟨h0, by rw [hV]; exact h1, hV, h2, toUInt16_eq_self _ h0 h2,
    ⟨buildPage cv b materials, build_eq_some cv b materials hm (by omega), rfl, ?_⟩, ?_, ?_⟩
  · show (vertexLoop cv b ⟨0, Mem.fresh, Mem.fresh⟩).vindex = _
    rw [hv.1, hV]
    ring
  · intro k hk
    have hw := (indexInv_written b.mMeshResolution.x b.mMeshResolution.y _ hcolumns hi2 k).mp hk
    rw [hS]
    unfold sizeofUInt16
    omega
  · intro k e hk
    obtain ⟨g0, g1⟩ := indexInv_values b.mMeshResolution.x b.mMeshResolution.y _ hcolumns hi2 k e
      hk
    rw [hV]
    exact ⟨g0, g1, by omega⟩

/-- Witness of C12: corner `d` of cell `(2, 1)` of a 3 x 2 grid is 11, below
the 12 vertices. -/
theorem corner_indices_valid_witness :
    smallGrid.mMaterials = some ⟨7⟩ ∧
    0 < smallGrid.mMeshResolution.x ∧ 0 < smallGrid.mMeshResolution.y ∧
    smallGrid.mMeshResolution.x * smallGrid.mMeshResolution.y * 6 ≤ 65535 ∧
    cornerIndex (iadd smallGrid.mMeshResolution.x 1) 1 2 1 1 = 11 ∧
    numVertices smallGrid = 12 ∧
    (0 ≤ cornerIndex (iadd smallGrid.mMeshResolution.x 1) 1 2 1 1 ∧
    cornerIndex (iadd smallGrid.mMeshResolution.x 1) 1 2 1 1 < numVertices smallGrid ∧
    numVertices smallGrid = (smallGrid.mMeshResolution.x + 1) * (smallGrid.mMeshResolution.y + 1) ∧
    cornerIndex (iadd smallGrid.mMeshResolution.x 1) 1 2 1 1 ≤ 65535 ∧
    toUInt16 (cornerIndex (iadd smallGrid.mMeshResolution.x 1) 1 2 1 1) =
      cornerIndex (iadd smallGrid.mMeshResolution.x 1) 1 2 1 1 ∧
    (∃ p : Page, build broadcast smallGrid = some p ∧ p.vertexCount = numVertices smallGrid ∧
      p.vindex = numVertices smallGrid) ∧
    (∀ k : Int,
      ((indexLoop smallGrid.mMeshResolution.x smallGrid.mMeshResolution.y
        ⟨0, Mem.fresh⟩).indices k).isSome = true →
        0 ≤ k ∧ (k + 1) * sizeofUInt16 ≤ indexBufferSize smallGrid) ∧
    (∀ k e : Int,
      (indexLoop smallGrid.mMeshResolution.x smallGrid.mMeshResolution.y
        ⟨0, Mem.fresh⟩).indices k = some e →
        0 ≤ e ∧ e < numVertices smallGrid ∧ e ≤ 65535)) :=
  ⟨rfl, by decide, by decide, by decide, by decide, by decide,
    corner_indices_valid broadcast smallGrid ⟨7⟩ rfl (by decide) (by decide) (by decide)
      1 2 1 1 (by decide) (by decide) (by decide) (by decide)⟩

/-- C13, counterexample: getting past the guard does not give
`columns >= 1` and `rows >= 1`. `meshResolution(0, 0)` with a provider has
`numIndices = 0` and passes; its vertex loop emits one vertex, for which the
divisions `col / numColumns` and `row / numRows` divide by zero.
`meshResolution(-1, -1)` has `numIndices = 6` and passes too, with a declared
vertex count of 0. -/
theorem guard_passes_nonpositive :
    isInt32 0 ∧ isInt32 (-1) ∧
    numIndices zeroGrid = 0 ∧ guardFails zeroGrid = false ∧
    build broadcast zeroGrid ≠ none ∧
    (zeroGrid.mMeshResolution.x : ℚ) = 0 ∧ (zeroGrid.mMeshResolution.y : ℚ) = 0 ∧
    floatDiv ((0 : Int) : ℚ) (zeroGrid.mMeshResolution.x : ℚ) = none ∧
    floatDiv ((0 : Int) : ℚ) (zeroGrid.mMeshResolution.y : ℚ) = none ∧
    (∃ p : Page, build broadcast zeroGrid = some p ∧ p.vertexCount = 1 ∧ p.vindex = 1) ∧
    numIndices negativeGrid = 6 ∧
    (∃ p : Page, build broadcast negativeGrid = some p ∧ p.vertexCount = 0) ∧
    ¬ (∀ columns rows : Int, isInt32 columns → isInt32 rows →
        build broadcast ((PageBuilder.new (some ⟨0⟩)).meshResolution columns rows) ≠ none →
        1 ≤ columns ∧ 1 ≤ rows) := by
  have hz : build broadcast zeroGrid ≠ none := by
    rw [Ne, build_eq_none_iff]
    decide
  have hx : (zeroGrid.mMeshResolution.x : ℚ) = 0 := by
    simp [zeroGrid, PageBuilder.meshResolution]
  have hy : (zeroGrid.mMeshResolution.y : ℚ) = 0 := by
    simp [zeroGrid, PageBuilder.meshResolution]
  refine ⟨by decide, by decide, by decide, by decide, hz, hx, hy,
    by rw [hx]; simp [floatDiv], by rw [hy]; simp [floatDiv],
    ⟨buildPage broadcast zeroGrid ⟨0⟩, build_eq_some broadcast zeroGrid ⟨0⟩ rfl (by decide),
      by show numVertices zeroGrid = 1; decide, ?_⟩,
    by decide,
    ⟨buildPage broadcast negativeGrid ⟨0⟩,
      build_eq_some broadcast negativeGrid ⟨0⟩ rfl (by decide),
      by show numVertices negativeGrid = 0; decide⟩, ?_⟩
  · show (vertexLoop broadcast zeroGrid ⟨0, Mem.fresh, Mem.fresh⟩).vindex = 1
    rfl
  · intro h
    have := h 0 0 (by decide) (by decide) hz
    omega

/-- C13, amended: for every `int` column and row count, `build` with a
non-null provider gets past its guard exactly when the `int` value
`numIndices` is at most 65535, whatever the signs of the counts. When
`columns >= 1` and `rows >= 1` the divisions `col / numColumns` and
`row / numRows` of the vertex loop do not divide by zero and give the `u` and
`v` of the loop; when moreover `columns * rows * 6 ≤ 65535`, `build` gets past the
guard and the vertex count it declares, `(columns + 1) * (rows + 1)`, is
positive. -/
theorem guard_and_divisors (cv : ScalarConv) (b : PageBuilder) (materials : PageMaterials)
    (hm : b.mMaterials = some materials) :
    (build cv b ≠ none ↔ numIndices b ≤ 65535) ∧
    (1 ≤ b.mMeshResolution.x → 1 ≤ b.mMeshResolution.y → ∀ row col : Int,
      floatDiv (col : ℚ) (b.mMeshResolution.x : ℚ) = some (gridU b col) ∧
      floatDiv (row : ℚ) (b.mMeshResolution.y : ℚ) = some (gridV b row)) ∧
    (1 ≤ b.mMeshResolution.x → 1 ≤ b.mMeshResolution.y →
      b.mMeshResolution.x * b.mMeshResolution.y * 6 ≤ 65535 →
      ∃ p : Page, build cv b = some p ∧
        p.vertexCount = (b.mMeshResolution.x + 1) * (b.mMeshResolution.y + 1) ∧
        0 < p.vertexCount) := by
  refine ⟨?_, ?_, ?_⟩
  · rw [Ne, build_eq_none_iff]
    unfold guardFails
    rw [hm]
    simp
  · intro hcolumns hrows row col
    have hx : (b.mMeshResolution.x : ℚ) ≠ 0 := by
      have : b.mMeshResolution.x ≠ 0 := by omega
      exact_mod_cast this
    have hy : (b.mMeshResolution.y : ℚ) ≠ 0 := by
      have : b.mMeshResolution.y ≠ 0 := by omega
      exact_mod_cast this
    unfold floatDiv gridU gridV
    rw [if_neg hx, if_neg hy]
    exact ⟨rfl, rfl⟩
  · intro hcolumns hrows hlimit
    obtain ⟨_, hI, hV⟩ := counts_exact b (by omega) (by omega) hlimit
    refine ⟨buildPage cv b materials, build_eq_some cv b materials hm (by omega), hV, ?_⟩
    show 0 < numVertices b
    rw [hV]
    exact mul_pos (by omega) (by omega)

/-- Witness of the amended C13 on a 3 x 2 grid, whose counts are at least 1
and within the index limit. -/
theorem guard_and_divisors_witness :
    smallGrid.mMaterials = some ⟨7⟩ ∧
    1 ≤ smallGrid.mMeshResolution.x ∧ 1 ≤ smallGrid.mMeshResolution.y ∧
    smallGrid.mMeshResolution.x * smallGrid.mMeshResolution.y * 6 ≤ 65535 ∧
    ((build broadcast smallGrid ≠ none ↔ numIndices smallGrid ≤ 65535) ∧
    (1 ≤ smallGrid.mMeshResolution.x → 1 ≤ smallGrid.mMeshResolution.y → ∀ row col : Int,
      floatDiv (col : ℚ) (smallGrid.mMeshResolution.x : ℚ) = some (gridU smallGrid col) ∧
      floatDiv (row : ℚ) (smallGrid.mMeshResolution.y : ℚ) = some (gridV smallGrid row)) ∧
    (1 ≤ smallGrid.mMeshResolution.x → 1 ≤ smallGrid.mMeshResolution.y →
      smallGrid.mMeshResolution.x * smallGrid.mMeshResolution.y * 6 ≤ 65535 →
      ∃ p : Page, build broadcast smallGrid = some p ∧
        p.vertexCount = (smallGrid.mMeshResolution.x + 1) * (smallGrid.mMeshResolution.y + 1) ∧
        0 < p.vertexCount)) :=
  ⟨rfl, by decide, by decide, by decide, guard_and_divisors broadcast smallGrid ⟨7⟩ rfl⟩

end filament.pagecurl
